import Mathlib

/-!
Portfolio front end and its validation script: particle field, pointer trail,
scripted terminal, theme toggle, contact form, validator, visibility change,
typewriter, keyboard navigation and counters.

A shallow embedding of `src/js/main.js` (class `PortfolioApp`) and of
`src/scripts/validate.js`.

JavaScript numbers are modelled by the elements of a linearly ordered field `K`
with a floor function (exact arithmetic; `ℚ` is the executable instance), and
`Date.now()` by an integer number of milliseconds.  The ambient inputs of the
browser are passed explicitly:

* `rand : Nat → K`, the successive results of `Math.random()` during one call;
* `sqrt : K → K`, the function `Math.sqrt`;
* `innerWidth`, `innerHeight`, the size of the window;
* `hidden`, the value of `document.hidden`;
* `now`, the value of `Date.now()`.
-/

namespace Portfolio

/-! ## Data model -/

/-- The `type` field of a particle: the string 'code' or the string 'dot'. -/
inductive ParticleType where
  | code
  | dot
  deriving DecidableEq, Repr

/-- One entry of `this.particles`. -/
structure Particle (K : Type) where
  x : K
  y : K
  vx : K
  vy : K
  size : K
  opacity : K
  type : ParticleType
  deriving DecidableEq, Repr

/-- The `width` and `height` attributes of a canvas element. -/
structure Canvas (K : Type) where
  width : K
  height : K
  deriving DecidableEq, Repr

/-- The object `this.mousePos`. -/
structure MousePos (K : Type) where
  x : K
  y : K
  deriving DecidableEq, Repr

/-- One entry of `this.trail`. -/
structure TrailPoint (K : Type) where
  x : K
  y : K
  time : Int
  deriving DecidableEq, Repr

/-- The fields of `PortfolioApp` used by the particle system and the mouse trail.
`particleCtx` and `trailCtx` say whether the 2d context is non-null;
`trailCanvas` is `none` when the page has no `#mouse-trail` element. -/
structure PortfolioApp (K : Type) where
  particles : List (Particle K)
  mousePos : MousePos K
  trail : List (TrailPoint K)
  particleCanvas : Canvas K
  particleCtx : Bool
  trailCanvas : Option (Canvas K)
  trailCtx : Bool
  deriving DecidableEq, Repr

/-- What a frame paints on its canvas, in order.  `clearCanvas` is
`clearRect(0, 0, canvas.width, canvas.height)`; `fillText` and `arc` carry the
value of `globalAlpha` they are painted with (`arc` is followed by `fill()`). -/
inductive DrawCmd (K : Type) where
  | clearCanvas
  | fillText (char : Option String) (x y fontPx alpha : K)
  | arc (x y radius alpha : K)
  deriving DecidableEq, Repr

/-- The outcome of one frame callback: the new state, what was painted, and
whether `requestAnimationFrame` was called again. -/
structure Frame (K : Type) where
  app : PortfolioApp K
  drawn : List (DrawCmd K)
  rescheduled : Bool
  deriving DecidableEq, Repr

section Code

variable {K : Type} [LinearOrderedField K] [FloorRing K]

/-! ## Particle system -/

/-- Method `resizeParticleCanvas`. -/
def resizeParticleCanvas (innerWidth innerHeight : K) (s : PortfolioApp K) : PortfolioApp K :=
  { s with particleCanvas := { width := innerWidth, height := innerHeight } }

/-- The object literal pushed by the `i`-th iteration of the loop of
`createParticles`; its seven `Math.random()` calls are draws `7 * i` to `7 * i + 6`. -/
def newParticle (rand : Nat → K) (canvas : Canvas K) (i : Nat) : Particle K :=
  { x := rand (7 * i) * canvas.width
    y := rand (7 * i + 1) * canvas.height
    vx := (rand (7 * i + 2) - 0.5) * 0.5
    vy := (rand (7 * i + 3) - 0.5) * 0.5
    size := rand (7 * i + 4) * 2 + 1
    opacity := rand (7 * i + 5) * 0.5 + 0.2
    type := if rand (7 * i + 6) > 0.8 then ParticleType.code else ParticleType.dot }

/-- The loop `for (let i = 0; i < particleCount; i++) this.particles.push(...)`,
with `remaining` iterations left to run from index `i`. -/
def pushParticles (rand : Nat → K) (canvas : Canvas K) :
    Nat → Nat → List (Particle K) → List (Particle K)
  | 0, _, particles => particles
  | remaining + 1, i, particles =>
      pushParticles rand canvas remaining (i + 1) (particles ++ [newParticle rand canvas i])

/-- The constant `particleCount` of `createParticles`. -/
def particleCount (innerWidth : K) : Int :=
  min 50 (Int.floor (innerWidth / 30))

/-- Method `createParticles`: the loop runs while `i < particleCount`, that is
`particleCount.toNat` times, from the emptied array. -/
def createParticles (rand : Nat → K) (innerWidth : K) (s : PortfolioApp K) : PortfolioApp K :=
  { s with
    particles := pushParticles rand s.particleCanvas (particleCount innerWidth).toNat 0 [] }

/-- Method `resizeTrailCanvas`. -/
def resizeTrailCanvas (innerWidth innerHeight : K) (s : PortfolioApp K) : PortfolioApp K :=
  match s.trailCanvas with
  | none => s
  | some _ => { s with trailCanvas := some { width := innerWidth, height := innerHeight } }

/-- Method `handleResize`. -/
def handleResize (rand : Nat → K) (innerWidth innerHeight : K) (s : PortfolioApp K) :
    PortfolioApp K :=
  createParticles rand innerWidth
    (resizeTrailCanvas innerWidth innerHeight (resizeParticleCanvas innerWidth innerHeight s))

/-- The first part of the body of `this.particles.forEach` in `animateParticles`:
`particle.x += particle.vx; particle.y += particle.vy` and the four tests under
the comment "Wrap around screen". -/
def advanceAndWrap (canvas : Canvas K) (particle : Particle K) : Particle K :=
  let x := particle.x + particle.vx
  let y := particle.y + particle.vy
  let x := if x < 0 then canvas.width else x
  let x := if x > canvas.width then 0 else x
  let y := if y < 0 then canvas.height else y
  let y := if y > canvas.height then 0 else y
  { particle with x := x, y := y }

/-- The second part of the body, under the comment "Mouse interaction". -/
def mouseInteraction (sqrt : K → K) (mousePos : MousePos K) (particle : Particle K) :
    Particle K :=
  let dx := mousePos.x - particle.x
  let dy := mousePos.y - particle.y
  let distance := sqrt (dx * dx + dy * dy)
  if distance < 100 then
    let force := (100 - distance) / 100
    { particle with x := particle.x - dx * force * 0.01, y := particle.y - dy * force * 0.01 }
  else
    particle

/-- The state update of the body of `this.particles.forEach`: advance and wrap,
then the mouse interaction. -/
def moveParticle (sqrt : K → K) (canvas : Canvas K) (mousePos : MousePos K)
    (particle : Particle K) : Particle K :=
  mouseInteraction sqrt mousePos (advanceAndWrap canvas particle)

/-- The array `codeChars`. -/
def codeChars : List String := ["0", "1", "\x7b", "\x7d", "(", ")", "<", ">", "/"]

/-- The element `codeChars[Math.floor(r * codeChars.length)]`, `none` for `undefined`. -/
def codeCharAt (r : K) : Option String :=
  match Int.floor (r * (codeChars.length : K)) with
  | Int.ofNat n => codeChars.get? n
  | Int.negSucc _ => none

/-- The painting at the end of the body of the `forEach`: a glyph for a 'code'
particle, which takes the next `Math.random()` draw, a filled circle otherwise.
Returns the command and the index of the next draw. -/
def drawParticle (rand : Nat → K) (k : Nat) (particle : Particle K) : DrawCmd K × Nat :=
  if particle.type = ParticleType.code then
    (DrawCmd.fillText (codeCharAt (rand k)) particle.x particle.y (particle.size * 8)
      particle.opacity, k + 1)
  else
    (DrawCmd.arc particle.x particle.y particle.size particle.opacity, k)

/-- The state carried through `this.particles.forEach`: the particles already
updated, the commands painted so far and the index of the next random draw. -/
structure ForEachAcc (K : Type) where
  particles : List (Particle K)
  drawn : List (DrawCmd K)
  nextRand : Nat

/-- One iteration of `this.particles.forEach` in `animateParticles`. -/
def forEachStep (rand : Nat → K) (sqrt : K → K) (canvas : Canvas K) (mousePos : MousePos K)
    (acc : ForEachAcc K) (particle : Particle K) : ForEachAcc K :=
  let moved := moveParticle sqrt canvas mousePos particle
  let painted := drawParticle rand acc.nextRand moved
  { particles := acc.particles ++ [moved]
    drawn := acc.drawn ++ [painted.1]
    nextRand := painted.2 }

/-- Method `animateParticles`, one frame callback. -/
def animateParticles (rand : Nat → K) (sqrt : K → K) (hidden : Bool) (s : PortfolioApp K) :
    Frame K :=
  if !s.particleCtx || hidden then
    { app := s, drawn := [], rescheduled := true }
  else
    let acc := s.particles.foldl (forEachStep rand sqrt s.particleCanvas s.mousePos)
      { particles := [], drawn := [DrawCmd.clearCanvas], nextRand := 0 }
    { app := { s with particles := acc.particles }, drawn := acc.drawn, rescheduled := true }

/-! ## Mouse trail -/

/-- Method `updateMousePosition(e)` with `e.clientX`, `e.clientY` and `Date.now()`. -/
def updateMousePosition (clientX clientY : K) (now : Int) (s : PortfolioApp K) :
    PortfolioApp K :=
  let trail := s.trail ++ [{ x := clientX, y := clientY, time := now }]
  let trail := if trail.length > 20 then trail.tail else trail
  { s with mousePos := { x := clientX, y := clientY }, trail := trail }

/-- The painting of `this.trail[i]` in the loop of `animateMouseTrail`. -/
def drawTrailPoint (now : Int) (point : TrailPoint K) : DrawCmd K :=
  let age := now - point.time
  let opacity := max 0 (1 - (age : K) / 500)
  DrawCmd.arc point.x point.y 1 opacity

/-- The loop `for (let i = 0; i < this.trail.length - 1; i++)` of `animateMouseTrail`,
guarded by `this.trail.length > 1`. -/
def drawTrail (now : Int) (trail : List (TrailPoint K)) : List (DrawCmd K) :=
  if trail.length > 1 then
    (List.range (trail.length - 1)).filterMap
      (fun i => (trail.get? i).map (drawTrailPoint now))
  else
    []

/-- Method `animateMouseTrail`, one frame callback. -/
def animateMouseTrail (hidden : Bool) (now : Int) (s : PortfolioApp K) : Frame K :=
  if !s.trailCtx || hidden then
    { app := s, drawn := [], rescheduled := true }
  else
    let trail := s.trail.filter (fun point => now - point.time < 500)
    { app := { s with trail := trail }
      drawn := DrawCmd.clearCanvas :: drawTrail now trail
      rescheduled := true }

/-- What can happen to the trail: a (throttled) `mousemove`, or a frame callback. -/
inductive TrailEvent (K : Type) where
  | mouseMove (clientX clientY : K) (now : Int)
  | frame (hidden : Bool) (now : Int)

/-- The effect of one event on the application. -/
def trailStep (s : PortfolioApp K) : TrailEvent K → PortfolioApp K
  | TrailEvent.mouseMove clientX clientY now => updateMousePosition clientX clientY now s
  | TrailEvent.frame hidden now => (animateMouseTrail hidden now s).app

/-- The effect of a sequence of events, oldest first. -/
def runTrail (s : PortfolioApp K) (events : List (TrailEvent K)) : PortfolioApp K :=
  events.foldl trailStep s

end Code

/-! ## Scripted terminal

JavaScript strings are modelled by `String`; the methods used by the terminal are
defined on the list of characters.  A line records the text interpolated in the
markup of its `span`, and `shownText` gives what the browser then shows;
scrolling and sounds are left out. -/

/-- The method `startsWith`. -/
def jsStartsWith (s searchString : String) : Bool :=
  searchString.data.isPrefixOf s.data

/-- The method `substring(start)`. -/
def jsSubstring (s : String) (start : Nat) : String :=
  String.mk (s.data.drop start)

/-- The method `replace(pattern, '')` for a non-empty string `pattern`, on lists of
characters: the first occurrence of `pattern`, if any, is removed. -/
def removeFirst (pattern : List Char) : List Char → List Char
  | [] => []
  | c :: cs =>
      if pattern.isPrefixOf (c :: cs) then (c :: cs).drop pattern.length
      else c :: removeFirst pattern cs

/-- The call `text.replace(pattern, '')`. -/
def jsReplaceEmpty (text pattern : String) : String :=
  String.mk (removeFirst pattern.data text.data)

/-- The `type` argument of `addTerminalLine`: 'command', 'error', or anything else,
which is rendered as output. -/
inductive LineKind where
  | command
  | output
  | error
  deriving DecidableEq, Repr

/-- A child of `#terminal-content` made by `addTerminalLine`: its class and the
text interpolated in the markup of its `span`, which is assigned through
`innerHTML`; what the line then shows is given by `shownText`. -/
structure TerminalLine where
  kind : LineKind
  text : String
  deriving DecidableEq, Repr

/-- What the producers of the command table read from the browser: the value of
`new Date().toLocaleString()` and the result of `Math.random()`. -/
structure TerminalEnv (K : Type) where
  localeString : String
  random : K

/-- A value found under a property name of `this.terminalCommands`: a string, a
function (`call` gives the text of the value it returns, `none` when the call
throws), or an object that is not callable (`shown` is its conversion to a string). -/
inductive CommandValue (K : Type) where
  | text (s : String)
  | producer (call : TerminalEnv K → Option String)
  | object (shown : String)

/-- What an executed command leaves: the children of `#terminal-content` (`none`
when the page has no such element) and whether an exception escaped. -/
structure TerminalRun where
  content : Option (List TerminalLine)
  threw : Bool
  deriving DecidableEq, Repr

section TerminalCode

variable {K : Type} [LinearOrderedField K] [FloorRing K]

/-- The object `this.terminalCommands` of the constructor: its own properties. -/
def terminalCommands : List (String × CommandValue K) :=
  [ ("help", CommandValue.text
      "Available commands: help, projects, skills, joke, clear, whoami, claude"),
    ("projects", CommandValue.text
      "Loading amazing AI-assisted projects...\n→ Interactive Dashboard\n→ Smart Analytics Tool\n→ AI Code Assistant\n→ Portfolio Website"),
    ("skills", CommandValue.text
      "Core Skills:\n→ JavaScript/TypeScript ⭐⭐⭐⭐⭐\n→ React/Next.js ⭐⭐⭐⭐⭐\n→ Claude Code ⭐⭐⭐⭐⭐\n→ AI-Assisted Development ⭐⭐⭐⭐⭐"),
    ("joke", CommandValue.text
      "Why do AI assistants make great coding partners?\nBecause they never get tired of your infinite loops! 🤖"),
    ("clear", CommandValue.text ""),
    ("whoami", CommandValue.text
      "A passionate developer exploring the future of AI-assisted coding!"),
    ("claude", CommandValue.text
      "Claude Code is my favorite AI coding companion! 🚀\nTogether we build amazing things."),
    ("date", CommandValue.producer (fun env => some env.localeString)),
    ("random", CommandValue.producer
      (fun env => some (toString (Int.floor (env.random * 1000))))),
    ("matrix", CommandValue.text "Welcome to the Matrix... 🕶️"),
    ("coffee", CommandValue.text "☕ Brewing some coding fuel..."),
    ("debug", CommandValue.text "console.log(\"Hello, World!\"); // Classic!") ]

/-- The properties that `this.terminalCommands`, made by an object literal,
inherits from `Object.prototype` (ECMAScript, Annex B included), with what the
call `this.terminalCommands[name]()` without arguments gives: `Object()` makes an
empty object, `toString`, `toLocaleString` and `valueOf` give the table or its
string, the three tests answer for the property name 'undefined', the two
`__define...__` methods throw a `TypeError` for want of a function, and the two
`__lookup...__` methods return `undefined`. -/
def objectPrototype : List (String × CommandValue K) :=
  [ ("constructor", CommandValue.producer (fun _ => some "[object Object]")),
    ("__defineGetter__", CommandValue.producer (fun _ => none)),
    ("__defineSetter__", CommandValue.producer (fun _ => none)),
    ("hasOwnProperty", CommandValue.producer (fun _ => some "false")),
    ("__lookupGetter__", CommandValue.producer (fun _ => some "undefined")),
    ("__lookupSetter__", CommandValue.producer (fun _ => some "undefined")),
    ("isPrototypeOf", CommandValue.producer (fun _ => some "false")),
    ("propertyIsEnumerable", CommandValue.producer (fun _ => some "false")),
    ("toString", CommandValue.producer (fun _ => some "[object Object]")),
    ("valueOf", CommandValue.producer (fun _ => some "[object Object]")),
    ("__proto__", CommandValue.object "[object Object]"),
    ("toLocaleString", CommandValue.producer (fun _ => some "[object Object]")) ]

/-- The expression `this.terminalCommands[command]`: an own property, else an
inherited one, else `undefined` (`none`). -/
def getProperty (command : String) : Option (CommandValue K) :=
  match (terminalCommands (K := K)).lookup command with
  | some value => some value
  | none => (objectPrototype (K := K)).lookup command

/-- Whether `this.terminalCommands[command]` is truthy, as tested by the `else if`:
`undefined` and the empty string are not. -/
def isTruthy : Option (CommandValue K) → Bool
  | none => false
  | some (CommandValue.text s) => decide (s ≠ "")
  | some (CommandValue.producer _) => true
  | some (CommandValue.object _) => true

/-- The constant `output` of `executeTerminalCommand` as the text that
`addTerminalLine` interpolates: the result of the call when the value is a
function (`none` when the call throws), the value itself otherwise. -/
def outputText (env : TerminalEnv K) : Option (CommandValue K) → Option String
  | none => some "undefined"
  | some (CommandValue.text s) => some s
  | some (CommandValue.producer call) => call env
  | some (CommandValue.object shown) => some shown

end TerminalCode

/-- Method `addTerminalLine(text, type)`: nothing without `#terminal-content`;
the new line records the text interpolated in the markup assigned to its
`innerHTML`, which for a 'command' line is `text.replace('claude-code $ ', '')`. -/
def addTerminalLine (text : String) (type : LineKind)
    (terminalContent : Option (List TerminalLine)) : Option (List TerminalLine) :=
  match terminalContent with
  | none => none
  | some lines =>
      let line : TerminalLine :=
        if type = LineKind.command then
          { kind := LineKind.command, text := jsReplaceEmpty text "claude-code $ " }
        else if type = LineKind.error then
          { kind := LineKind.error, text := text }
        else
          { kind := LineKind.output, text := text }
      some (lines ++ [line])

/-- Method `executeTerminalCommand(command)`; `terminalContent.innerHTML = ''`
removes every child. -/
def executeTerminalCommand {K : Type} [LinearOrderedField K] [FloorRing K]
    (env : TerminalEnv K) (command : String)
    (terminalContent : Option (List TerminalLine)) : TerminalRun :=
  match terminalContent with
  | none => { content := none, threw := false }
  | some _ =>
      let content := addTerminalLine ("claude-code $ " ++ command) LineKind.command terminalContent
      if command = "clear" then
        { content := addTerminalLine
            "claude-code $ Welcome back! Type \"help\" for available commands."
            LineKind.output (some [])
          threw := false }
      else if isTruthy (getProperty (K := K) command) then
        match outputText env (getProperty command) with
        | some output => { content := addTerminalLine output LineKind.output content, threw := false }
        | none => { content := content, threw := true }
      else if jsStartsWith command "echo " then
        { content := addTerminalLine (jsSubstring command 5) LineKind.output content
          threw := false }
      else if command ≠ "" then
        { content := addTerminalLine
            ("Command not found: " ++ command ++ ". Type \"help\" for available commands.")
            LineKind.error content
          threw := false }
      else
        { content := content, threw := false }

/-- The `keydown` listener of `initTerminal` on the input field holding `value`:
on Enter the trimmed, lower-cased value is executed and the field is emptied (it
keeps its value when the command throws).  `trim` and `toLowerCase` are the
methods of `String`.  Returns the new value of the field and the run. -/
def terminalKeydown {K : Type} [LinearOrderedField K] [FloorRing K]
    (trim toLowerCase : String → String) (env : TerminalEnv K) (key value : String)
    (terminalContent : Option (List TerminalLine)) : String × TerminalRun :=
  if key = "Enter" then
    let command := toLowerCase (trim value)
    let run := executeTerminalCommand env command terminalContent
    (if run.threw then value else "", run)
  else
    (value, { content := terminalContent, threw := false })

/-! ### What a terminal line shows

The markup of a line is assigned through `innerHTML`, so the browser parses the
interpolated text as HTML.  The part of that parsing used here: plain characters
are kept as they are, and the tags `<b>` and `</b>` make no text. -/

/-- Where the reading of an interpolated text stands: outside a tag, or after the
characters `<`, `<b`, `</`, `</b`. -/
inductive MarkupState where
  | outside
  | afterLt
  | afterLtB
  | afterLtSlash
  | afterLtSlashB
  deriving DecidableEq, Repr

/-- Whether the HTML parser keeps the character as it is when it stands in text:
it is not `<` (which starts a tag), `&` (which starts a character reference), a
carriage return (which is made a line feed) or a null character (which is dropped). -/
def isPlainChar (c : Char) : Bool :=
  c != '<' && c != '&' && c != Char.ofNat 13 && c != Char.ofNat 0

/-- Whether a text holds plain characters only. -/
def isPlainText (text : String) : Bool :=
  text.data.all isPlainChar

/-- The text content that the browser gives to a `span` whose markup holds the
interpolated characters, read from the given state: plain characters are kept,
the tags `<b>` and `</b>` add an element or end one and make no text; `none` for
any other markup, which is not covered here. -/
def fragmentTextFrom : MarkupState → List Char → Option (List Char)
  | MarkupState.outside, [] => some []
  | _, [] => none
  | MarkupState.outside, c :: rest =>
      if c = '<' then fragmentTextFrom MarkupState.afterLt rest
      else if isPlainChar c then (fragmentTextFrom MarkupState.outside rest).map (fun cs => c :: cs)
      else none
  | MarkupState.afterLt, c :: rest =>
      if c = 'b' then fragmentTextFrom MarkupState.afterLtB rest
      else if c = '/' then fragmentTextFrom MarkupState.afterLtSlash rest
      else none
  | MarkupState.afterLtB, c :: rest =>
      if c = '>' then fragmentTextFrom MarkupState.outside rest else none
  | MarkupState.afterLtSlash, c :: rest =>
      if c = 'b' then fragmentTextFrom MarkupState.afterLtSlashB rest else none
  | MarkupState.afterLtSlashB, c :: rest =>
      if c = '>' then fragmentTextFrom MarkupState.outside rest else none

/-- The text shown by the `span` of a terminal line into which `line.text` was
interpolated (for a 'command' line, the `span` of class `command`); `none` when
the text holds markup that `fragmentTextFrom` does not cover. -/
def shownText (line : TerminalLine) : Option String :=
  (fragmentTextFrom MarkupState.outside line.text.data).map String.mk

/-! ## Theme toggle -/

/-- What the theme toggle reads and writes: the attribute `data-theme` of the
document element (`none` when unset), the item 'portfolio-theme' of `localStorage`
(`none` when unset) and the text of the `.theme-icon` element (`none` when the page
has no such element). -/
structure ThemeState where
  dataTheme : Option String
  storedTheme : Option String
  themeIcon : Option String
  deriving DecidableEq, Repr

/-- Method `updateThemeIcon(theme)`. -/
def updateThemeIcon (theme : String) (s : ThemeState) : ThemeState :=
  match s.themeIcon with
  | none => s
  | some _ => { s with themeIcon := some (if theme = "dark" then "🌙" else "☀️") }

/-- The start of `initThemeToggle` on a page with a `.theme-toggle` element: the
saved theme, or 'dark' when none (or the empty string) is saved, becomes the theme. -/
def initThemeToggle (s : ThemeState) : ThemeState :=
  let savedTheme :=
    match s.storedTheme with
    | none => "dark"
    | some saved => if saved = "" then "dark" else saved
  updateThemeIcon savedTheme { s with dataTheme := some savedTheme }

/-- The `click` listener of the theme toggle (the sound is left out). -/
def themeToggleClick (s : ThemeState) : ThemeState :=
  let currentTheme := s.dataTheme
  let newTheme := if currentTheme = some "dark" then "light" else "dark"
  updateThemeIcon newTheme { s with dataTheme := some newTheme, storedTheme := some newTheme }

/-! ## Contact form -/

/-- A control of the contact form: its current value and the default value that
`form.reset()` restores. -/
structure FormControl where
  name : String
  value : String
  defaultValue : String
  deriving DecidableEq, Repr

/-- The element `#form-status`. -/
structure FormStatus where
  textContent : String
  className : String
  deriving DecidableEq, Repr

/-- The contact form and its status element. -/
structure ContactForm where
  controls : List FormControl
  status : FormStatus
  deriving DecidableEq, Repr

/-- Method `showFormStatus(message, type)` (the timer that hides a success
message after five seconds is left out). -/
def showFormStatus (message type : String) (form : ContactForm) : ContactForm :=
  { form with
    status := { textContent := message, className := "form-status " ++ type ++ " visible" } }

/-- The call `form.reset()`. -/
def formReset (form : ContactForm) : ContactForm :=
  { form with controls := form.controls.map (fun c => { c with value := c.defaultValue }) }

/-- Method `simulateFormSubmission`, after its delay, on the draw `r` of
`Math.random()`: the promise resolves, or rejects with an `Error` of the given
message. -/
def simulateFormSubmission {K : Type} [LinearOrderedField K] (r : K) : Except String Unit :=
  if r > 0.1 then Except.ok () else Except.error "Submission failed"

/-- The `submit` listener of `initContactForm`, run to its end with no other
event in between (sounds are left out). -/
def submitHandler {K : Type} [LinearOrderedField K] (r : K) (form : ContactForm) :
    ContactForm :=
  let form := showFormStatus "Sending message..." "info" form
  match simulateFormSubmission r with
  | Except.ok _ =>
      formReset
        (showFormStatus "Message sent successfully! I\x27ll get back to you soon." "success" form)
  | Except.error _ =>
      showFormStatus "Failed to send message. Please try again or contact me directly."
        "error" form

/-! ## Validation script (`src/scripts/validate.js`) -/

/-- A value made by `JSON.parse`; an object is the list of its members. -/
inductive Json where
  | null
  | bool (b : Bool)
  | number (q : ℚ)
  | string (s : String)
  | array (items : List Json)
  | object (members : List (String × Json))

/-- What the script reads of the working directory: which paths exist, for which
paths `fs.readFileSync(path, 'utf8')` returns rather than throws (a directory or a
file without read permission throws), and what
`JSON.parse(fs.readFileSync('manifest.json', 'utf8'))` gives (`none` when the
reading or the parsing throws). -/
structure FileSystem where
  existsSync : String → Bool
  readable : String → Bool
  manifest : Option Json

/-- The array `requiredFiles`: path and description. -/
def requiredFiles : List (String × String) :=
  [ ("index.html", "HTML file"),
    ("css/styles.css", "CSS file"),
    ("js/main.js", "JavaScript file"),
    ("manifest.json", "PWA manifest"),
    ("robots.txt", "Robots.txt file"),
    ("sitemap.xml", "Sitemap file"),
    ("sw.js", "Service Worker") ]

/-- The array `requiredFields`. -/
def requiredFields : List String :=
  ["name", "short_name", "start_url", "display", "theme_color", "icons"]

/-- The helper `checkFile`, as its effect on the counter `errors`. -/
def checkFile (fs : FileSystem) (errors : Nat) (file : String × String) : Nat :=
  if !fs.existsSync file.1 then errors + 1 else errors

/-- The expression `manifest[field]` for a parsed manifest other than `null` and a
field of `requiredFields`, `none` for `undefined`: only an object has such a
property. -/
def manifestField (manifest : Json) (field : String) : Option Json :=
  match manifest with
  | Json.object members => members.lookup field
  | _ => none

/-- Whether a value of `manifest[field]` is truthy. -/
def jsonTruthy : Option Json → Bool
  | none => false
  | some Json.null => false
  | some (Json.bool b) => b
  | some (Json.number q) => decide (q ≠ 0)
  | some (Json.string s) => decide (s ≠ "")
  | some (Json.array _) => true
  | some (Json.object _) => true

/-- The block "Validate PWA manifest", as its effect on the counter `errors`:
one error when `JSON.parse` throws, one when the manifest is `null` (the first
`manifest[field]` throws into the same `catch`), else one for every required
field that is not truthy. -/
def validateManifest (fs : FileSystem) (errors : Nat) : Nat :=
  if fs.existsSync "manifest.json" then
    match fs.manifest with
    | none => errors + 1
    | some Json.null => errors + 1
    | some manifest =>
        requiredFields.foldl
          (fun errors field =>
            if !jsonTruthy (manifestField manifest field) then errors + 1 else errors)
          errors
  else
    errors

/-- The end of the script: the argument of `process.exit`. -/
def exitCode (errors warnings : Nat) : Nat :=
  if errors > 0 then 1 else if warnings > 0 then 0 else 0

/-- Whether the block `if (fs.existsSync(path)) { ... fs.readFileSync(path, 'utf8') ... }`
throws: the path exists and cannot be read.  These reads stand outside any `try`. -/
def readThrows (fs : FileSystem) (path : String) : Bool :=
  fs.existsSync path && !fs.readable path

/-- The script `validate.js`: its exit code.  An exception thrown by the reading
of `index.html`, `css/styles.css`, `js/main.js` or `sw.js` is not caught, and Node
then ends the process with exit code 1.  The checks that can only count a
warning (meta tags, sections, accessibility, CSS, JavaScript, icons, service
worker) are not run here: the value of `warnings` they end with is an argument. -/
def validate (fs : FileSystem) (warnings : Nat) : Nat :=
  let errors := requiredFiles.foldl (checkFile fs) 0
  if readThrows fs "index.html" then 1
  else if readThrows fs "css/styles.css" then 1
  else if readThrows fs "js/main.js" then 1
  else
    let errors := validateManifest fs errors
    if readThrows fs "sw.js" then 1
    else exitCode errors warnings

/-! ## Pointer distance and visibility change -/

/-- The constant `distance` of the mouse interaction in `animateParticles`:
`Math.sqrt(dx * dx + dy * dy)` with `dx` and `dy` the differences from the particle
to the pointer. -/
def pointerDistance {K : Type} [LinearOrderedField K] (sqrt : K → K) (mousePos : MousePos K)
    (particle : Particle K) : K :=
  let dx := mousePos.x - particle.x
  let dy := mousePos.y - particle.y
  sqrt (dx * dx + dy * dy)

/-- Method `handleVisibilityChange`, with `hidden` the value of `document.hidden`. -/
def handleVisibilityChange {K : Type} [LinearOrderedField K] (hidden : Bool)
    (s : PortfolioApp K) : PortfolioApp K :=
  if hidden then
    { s with
      particles := s.particles.map
        (fun particle => { particle with vx := particle.vx * 0.1, vy := particle.vy * 0.1 }) }
  else
    { s with
      particles := s.particles.map
        (fun particle => { particle with vx := particle.vx * 10, vy := particle.vy * 10 }) }

/-- A `visibilitychange` event of the document, which has two listeners calling
`handleVisibilityChange`: the one added by `setupEventListeners` and the one added
at the end of the file. -/
def visibilityChangeEvent {K : Type} [LinearOrderedField K] (hidden : Bool)
    (s : PortfolioApp K) : PortfolioApp K :=
  handleVisibilityChange hidden (handleVisibilityChange hidden s)

/-! ## Typewriter -/

/-- The call `split(',')`, on lists of characters. -/
def splitComma : List Char → List (List Char)
  | [] => [[]]
  | c :: cs =>
      if c = ',' then [] :: splitComma cs
      else
        match splitComma cs with
        | [] => [[c]]
        | word :: words => (c :: word) :: words

/-- The call `typewriter.dataset.strings.split(',')`. -/
def jsSplitComma (s : String) : List String :=
  (splitComma s.data).map String.mk

/-- The call `current.substring(0, end)`: a negative `end` counts as 0 and one
beyond the length as the length. -/
def jsSubstringTo (s : String) (last : Int) : String :=
  String.mk (s.data.take last.toNat)

/-- The variables of `initTypewriter` shared by the ticks of `type`, the text of
the typewriter element and the delay given to `setTimeout`. -/
structure Typewriter where
  strings : List String
  currentString : Nat
  currentChar : Int
  isDeleting : Bool
  textContent : String
  typeSpeed : Nat
  deriving DecidableEq, Repr

/-- The variables of `initTypewriter` before the first call of `type`, for an
element with the attribute `data-strings` and the text `textContent`. -/
def typewriterStart (dataStrings textContent : String) : Typewriter :=
  { strings := jsSplitComma dataStrings
    currentString := 0
    currentChar := 0
    isDeleting := false
    textContent := textContent
    typeSpeed := 0 }

/-- One call of the closure `type`; `none` when `strings[currentString]` is
`undefined`, so that `current.substring` throws. -/
def typeTick (t : Typewriter) : Option Typewriter :=
  match t.strings.get? t.currentString with
  | none => none
  | some current =>
      let textContent :=
        if t.isDeleting then jsSubstringTo current (t.currentChar - 1)
        else jsSubstringTo current (t.currentChar + 1)
      let currentChar := if t.isDeleting then t.currentChar - 1 else t.currentChar + 1
      let typeSpeed := if t.isDeleting then 50 else 100
      if !t.isDeleting && currentChar = (current.length : Int) then
        some { t with
          textContent := textContent, currentChar := currentChar
          typeSpeed := 2000, isDeleting := true }
      else if t.isDeleting && currentChar = 0 then
        some { t with
          textContent := textContent, currentChar := currentChar
          isDeleting := false
          currentString := (t.currentString + 1) % t.strings.length
          typeSpeed := 500 }
      else
        some { t with
          textContent := textContent, currentChar := currentChar, typeSpeed := typeSpeed }

/-- The first `n` calls of `type`, each started by the timer of the one before. -/
def typeTicks : Nat → Typewriter → Option Typewriter
  | 0, t => some t
  | n + 1, t => (typeTick t).bind (typeTicks n)

/-! ## Keyboard navigation between sections -/

/-- The array `sections` of `scrollToNextSection` and `scrollToPrevSection`. -/
def sectionIds : List String :=
  ["home", "about", "projects", "skills", "journey", "terminal", "contact"]

/-- The call `sections.indexOf(x)`: the first index of `x`, or -1. -/
def jsIndexOf (sections : List String) (x : String) : Int :=
  if sections.indexOf x < sections.length then (sections.indexOf x : Int) else -1

/-- The element `sections[index]`, `none` for `undefined`. -/
def jsElementAt (sections : List String) (index : Int) : Option String :=
  match index with
  | Int.ofNat n => sections.get? n
  | Int.negSucc _ => none

/-- The constant `nextIndex` of `scrollToNextSection`; `%` is the remainder of the
truncated division. -/
def nextIndex (currentSection : String) : Int :=
  let currentIndex := jsIndexOf sectionIds currentSection
  Int.tmod (currentIndex + 1) (sectionIds.length : Int)

/-- The constant `prevIndex` of `scrollToPrevSection`. -/
def prevIndex (currentSection : String) : Int :=
  let currentIndex := jsIndexOf sectionIds currentSection
  if currentIndex = 0 then (sectionIds.length : Int) - 1 else currentIndex - 1

/-- The call `document.getElementById(sections[index])` on a page whose element
ids are given by `hasElement`; `undefined` is looked up as the id 'undefined'. -/
def getSectionById (hasElement : String → Bool) (index : Int) : Option String :=
  let id := (jsElementAt sectionIds index).getD "undefined"
  if hasElement id then some id else none

/-- Method `scrollToNextSection`: the id of the section scrolled to, if any. -/
def scrollToNextSection (hasElement : String → Bool) (currentSection : String) :
    Option String :=
  getSectionById hasElement (nextIndex currentSection)

/-- Method `scrollToPrevSection`: the id of the section scrolled to, if any. -/
def scrollToPrevSection (hasElement : String → Bool) (currentSection : String) :
    Option String :=
  getSectionById hasElement (prevIndex currentSection)

/-! ## Counters -/

/-- The closure `updateCounter` of `animateCounter` together with the frames it
requests, run for at most `frames` calls from the value `current`: the numbers
written to the counter, in order, and whether the loop has ended (the last call
requested no further frame). -/
def updateCounter {K : Type} [LinearOrderedField K] [FloorRing K] (target : Int)
    (increment : K) : Nat → K → List Int × Bool
  | 0, _ => ([], false)
  | frames + 1, current =>
      let current := current + increment
      if current < (target : K) then
        let rest := updateCounter target increment frames current
        (Int.floor current :: rest.1, rest.2)
      else
        ([target], true)

/-- The function `animateCounter` for a counter whose `data-count` parses to
`target`, followed for at most `frames` frames. -/
def animateCounter (K : Type) [LinearOrderedField K] [FloorRing K] (target : Int)
    (frames : Nat) : List Int × Bool :=
  let duration : K := 2000
  let increment : K := (target : K) / (duration / 16)
  updateCounter target increment frames 0

/-! ## Concrete inputs used in the examples -/

/-- A rational stand-in for `Math.sqrt`: the integer square root of the integer
part, exact on the squares of the natural numbers. -/
def sqrtQ (q : ℚ) : ℚ := (Nat.sqrt (Int.floor q).toNat : ℚ)

/-- A stream of `Math.random()` results: 0, 0.1, ..., 0.9, 0, 0.1, ... -/
def randQ (i : Nat) : ℚ := ((i % 10 : Nat) : ℚ) / 10

/-- A dot at `(x, y)` moving by `(vx, vy)` per frame. -/
def dotAt (x y vx vy : ℚ) : Particle ℚ :=
  { x := x, y := y, vx := vx, vy := vy, size := 1, opacity := 1 / 2, type := ParticleType.dot }

/-- An 800 by 600 window with both canvases, the given particles and trail, and
the pointer in the top left corner. -/
def sampleApp (particles : List (Particle ℚ)) (trail : List (TrailPoint ℚ)) : PortfolioApp ℚ :=
  { particles := particles
    mousePos := { x := 0, y := 0 }
    trail := trail
    particleCanvas := { width := 800, height := 600 }
    particleCtx := true
    trailCanvas := some { width := 800, height := 600 }
    trailCtx := true }

/-- A trail of `n` points recorded at times `0, 1, ..., n - 1`. -/
def sampleTrail (n : Nat) : List (TrailPoint ℚ) :=
  (List.range n).map (fun (i : Nat) => { x := (i : ℚ), y := 0, time := (i : Int) })

/-- A terminal environment: a date string and the draw 0.5. -/
def envQ : TerminalEnv ℚ :=
  { localeString := "11/6/2026, 1:00:00 AM", random := 1 / 2 }

/-- A stand-in for `toLowerCase`, exact on ASCII text. -/
def asciiLower (s : String) : String := String.mk (s.data.map Char.toLower)

/-- A stand-in for `trim`, exact on text whose only white space is the space. -/
def asciiTrim (s : String) : String :=
  String.mk (((s.data.dropWhile (fun c => c == ' ')).reverse.dropWhile
    (fun c => c == ' ')).reverse)

/-- A terminal log of two lines. -/
def sampleLog : List TerminalLine :=
  [ { kind := LineKind.command, text := "whoami" },
    { kind := LineKind.output,
      text := "A passionate developer exploring the future of AI-assisted coding!" } ]

/-- A page in the dark theme, saved, with a theme icon. -/
def darkTheme : ThemeState :=
  { dataTheme := some "dark", storedTheme := some "dark", themeIcon := some "🌙" }

/-- A working directory with every required file, all of them readable, whose
manifest is not valid JSON. -/
def brokenManifestDir : FileSystem :=
  { existsSync := fun _ => true, readable := fun _ => true, manifest := none }

/-- A working directory with every required file, whose manifest has the six
required fields, the name being the empty string. -/
def emptyNameDir : FileSystem :=
  { existsSync := fun _ => true
    readable := fun _ => true
    manifest := some (Json.object
      [ ("name", Json.string ""), ("short_name", Json.string "Portfolio"),
        ("start_url", Json.string "/"), ("display", Json.string "standalone"),
        ("theme_color", Json.string "#0f172a"), ("icons", Json.array []) ]) }

/-- A working directory with every required file and a manifest with the six
required fields. -/
def completeDir : FileSystem :=
  { existsSync := fun _ => true
    readable := fun _ => true
    manifest := some (Json.object
      [ ("name", Json.string "Portfolio"), ("short_name", Json.string "Portfolio"),
        ("start_url", Json.string "/"), ("display", Json.string "standalone"),
        ("theme_color", Json.string "#0f172a"), ("icons", Json.array []) ]) }

/-- A page that has the seven sections and no other element id of interest. -/
def sevenSections (id : String) : Bool := sectionIds.contains id

/-! ## Lemmas on the loops -/

section Lemmas

variable {K : Type} [LinearOrderedField K] [FloorRing K]

theorem pushParticles_eq {F : Type} [LinearOrderedField F] (rand : Nat → F)
    (canvas : Canvas F) (n i : Nat) (acc : List (Particle F)) :
    pushParticles rand canvas n i acc = acc ++ (List.range' i n).map (newParticle rand canvas) := by
  induction n generalizing i acc with
  | zero => simp [pushParticles]
  | succ n ih => simp [pushParticles, ih, List.range', List.append_assoc]

theorem createParticles_particles (rand : Nat → K) (innerWidth : K) (s : PortfolioApp K) :
    (createParticles rand innerWidth s).particles =
      (List.range (particleCount innerWidth).toNat).map (newParticle rand s.particleCanvas) := by
  simp [createParticles, pushParticles_eq, List.range_eq_range']

theorem particleCount_nonneg (innerWidth : K) (h : 0 ≤ innerWidth) :
    0 ≤ particleCount innerWidth := by
  unfold particleCount
  exact le_min (by norm_num) (Int.floor_nonneg.mpr (div_nonneg h (by norm_num)))

theorem createParticles_length (rand : Nat → K) (innerWidth : K) (s : PortfolioApp K)
    (h : 0 ≤ innerWidth) :
    ((createParticles rand innerWidth s).particles.length : Int) =
      min 50 (Int.floor (innerWidth / 30)) := by
  rw [createParticles_particles, List.length_map, List.length_range,
    Int.toNat_of_nonneg (particleCount_nonneg innerWidth h)]
  rfl

theorem forEach_particles (rand : Nat → K) (sqrt : K → K) (canvas : Canvas K)
    (mousePos : MousePos K) (particles : List (Particle K)) (acc : ForEachAcc K) :
    (particles.foldl (forEachStep rand sqrt canvas mousePos) acc).particles =
      acc.particles ++ particles.map (moveParticle sqrt canvas mousePos) := by
  induction particles generalizing acc with
  | nil => simp
  | cons p ps ih => simp [ih, forEachStep]

theorem animateParticles_particles (rand : Nat → K) (sqrt : K → K) (s : PortfolioApp K)
    (hctx : s.particleCtx = true) :
    (animateParticles rand sqrt false s).app.particles =
      s.particles.map (moveParticle sqrt s.particleCanvas s.mousePos) := by
  simp [animateParticles, hctx, forEach_particles]

theorem advanceAndWrap_x {F : Type} [LinearOrderedField F] (canvas : Canvas F)
    (p : Particle F) :
    (advanceAndWrap canvas p).x =
      if p.x + p.vx < 0 then canvas.width else if p.x + p.vx > canvas.width then 0
      else p.x + p.vx := by
  unfold advanceAndWrap
  by_cases h : p.x + p.vx < 0
  · simp [h]
  · simp [h]

theorem advanceAndWrap_y {F : Type} [LinearOrderedField F] (canvas : Canvas F)
    (p : Particle F) :
    (advanceAndWrap canvas p).y =
      if p.y + p.vy < 0 then canvas.height else if p.y + p.vy > canvas.height then 0
      else p.y + p.vy := by
  unfold advanceAndWrap
  by_cases h : p.y + p.vy < 0
  · simp [h]
  · simp [h]

theorem createParticles_at (rand : Nat → K) (W : K) (s : PortfolioApp K) (i : Nat)
    (p : Particle K) (h : (createParticles rand W s).particles.get? i = some p) :
    p = newParticle rand s.particleCanvas i := by
  rw [createParticles_particles, List.get?_eq_getElem?, List.getElem?_map] at h
  by_cases hi : i < (particleCount W).toNat
  · rw [List.getElem?_range hi] at h
    simpa using h.symm
  · rw [List.getElem?_eq_none (by simpa using hi)] at h
    simp at h

end Lemmas

theorem newParticle_ranges {F : Type} [LinearOrderedField F] (rand : Nat → F)
    (canvas : Canvas F) (i : Nat) (hrand : ∀ i, 0 ≤ rand i ∧ rand i < 1)
    (hw : 0 ≤ canvas.width) (hh : 0 ≤ canvas.height) :
    (-0.25 ≤ (newParticle rand canvas i).vx ∧ (newParticle rand canvas i).vx ≤ 0.25)
    ∧ (-0.25 ≤ (newParticle rand canvas i).vy ∧ (newParticle rand canvas i).vy ≤ 0.25)
    ∧ (1 ≤ (newParticle rand canvas i).size ∧ (newParticle rand canvas i).size ≤ 3)
    ∧ (0.2 ≤ (newParticle rand canvas i).opacity ∧ (newParticle rand canvas i).opacity ≤ 0.7)
    ∧ (0 ≤ (newParticle rand canvas i).x ∧ (newParticle rand canvas i).x ≤ canvas.width)
    ∧ (0 ≤ (newParticle rand canvas i).y ∧ (newParticle rand canvas i).y ≤ canvas.height) := by
  have h0 := hrand (7 * i)
  have h1 := hrand (7 * i + 1)
  have h2 := hrand (7 * i + 2)
  have h3 := hrand (7 * i + 3)
  have h4 := hrand (7 * i + 4)
  have h5 := hrand (7 * i + 5)
  simp only [newParticle]
  refine ⟨⟨?_, ?_⟩, ⟨?_, ?_⟩, ⟨?_, ?_⟩, ⟨?_, ?_⟩, ⟨?_, ?_⟩, ⟨?_, ?_⟩⟩
  · norm_num; linarith [h2.1]
  · norm_num; linarith [h2.2]
  · norm_num; linarith [h3.1]
  · norm_num; linarith [h3.2]
  · linarith [h4.1]
  · linarith [h4.2]
  · norm_num; linarith [h5.1]
  · norm_num; linarith [h5.2]
  · exact mul_nonneg h0.1 hw
  · exact mul_le_of_le_one_left hw (le_of_lt h0.2)
  · exact mul_nonneg h1.1 hh
  · exact mul_le_of_le_one_left hh (le_of_lt h1.2)

theorem randQ_range (i : Nat) : 0 ≤ randQ i ∧ randQ i < 1 := by
  unfold randQ
  refine ⟨by positivity, ?_⟩
  rw [div_lt_one (by norm_num)]
  exact_mod_cast Nat.mod_lt i (by norm_num)

theorem updateMousePosition_trail {F : Type} (clientX clientY : F) (now : Int)
    (s : PortfolioApp F) (h : s.trail.length ≤ 20) :
    (updateMousePosition clientX clientY now s).trail =
      if s.trail.length < 20 then s.trail ++ [{ x := clientX, y := clientY, time := now }]
      else s.trail.tail ++ [{ x := clientX, y := clientY, time := now }] := by
  unfold updateMousePosition
  by_cases hlt : s.trail.length < 20
  · have : ¬ (s.trail.length + 1 > 20) := by omega
    simp [hlt, this]
  · have hne : s.trail ≠ [] := by
      intro hnil
      rw [hnil] at hlt
      simp at hlt
    have : s.trail.length + 1 > 20 := by omega
    simp [hlt, this, List.tail_append_of_ne_nil hne]

theorem updateMousePosition_length_le {F : Type} (clientX clientY : F) (now : Int)
    (s : PortfolioApp F) (h : s.trail.length ≤ 20) :
    (updateMousePosition clientX clientY now s).trail.length ≤ 20 := by
  rw [updateMousePosition_trail clientX clientY now s h]
  by_cases hlt : s.trail.length < 20
  · simp [hlt]; omega
  · simp [hlt]; omega

theorem animateMouseTrail_length_le {F : Type} [LinearOrderedField F] (hidden : Bool) (now : Int)
    (s : PortfolioApp F) :
    (animateMouseTrail hidden now s).app.trail.length ≤ s.trail.length := by
  unfold animateMouseTrail
  split
  · exact le_refl _
  · exact List.length_filter_le _ _

theorem trailStep_length_le {F : Type} [LinearOrderedField F] (s : PortfolioApp F)
    (e : TrailEvent F) (h : s.trail.length ≤ 20) : (trailStep s e).trail.length ≤ 20 := by
  cases e with
  | mouseMove clientX clientY now => exact updateMousePosition_length_le clientX clientY now s h
  | frame hidden now => exact le_trans (animateMouseTrail_length_le hidden now s) h

theorem runTrail_length_le {F : Type} [LinearOrderedField F] (events : List (TrailEvent F))
    (s : PortfolioApp F) (h : s.trail.length ≤ 20) : (runTrail s events).trail.length ≤ 20 := by
  induction events generalizing s with
  | nil => exact h
  | cons e es ih => exact ih (trailStep s e) (trailStep_length_le s e h)

theorem range_filterMap_get {α β : Type} (f : α → β) (l : List α) (m : Nat)
    (hm : m ≤ l.length) :
    (List.range m).filterMap (fun i => (l.get? i).map f) = (l.take m).map f := by
  induction m with
  | zero => simp
  | succ m ih =>
    have hlt : m < l.length := hm
    rw [List.range_succ, List.filterMap_append, ih (le_of_lt hlt), List.take_succ,
      List.map_append]
    simp [List.getElem?_eq_getElem hlt]

theorem drawTrail_eq {F : Type} [LinearOrderedField F] (now : Int) (trail : List (TrailPoint F)) :
    drawTrail now trail = trail.dropLast.map (drawTrailPoint now) := by
  unfold drawTrail
  split
  · rw [range_filterMap_get _ _ _ (Nat.sub_le _ _), List.dropLast_eq_take]
  · rename_i h
    have : trail.length - 1 = 0 := by omega
    rw [List.dropLast_eq_take, this]
    simp


/-! ## Particle count -/

section Claims

variable {K : Type} [LinearOrderedField K] [FloorRing K]

/-- C1. For every window width `W ≥ 0`, `createParticles` leaves exactly
`min(50, floor(W / 30))` particles, all of them freshly made (none of the earlier
particles is kept), and `handleResize` to a window of width `W` also leaves exactly
`min(50, floor(W / 30))` particles. -/
theorem createParticles_count (rand : Nat → K) (W H : K) (s : PortfolioApp K) (hW : 0 ≤ W) :
    ((createParticles rand W s).particles.length : Int) = min 50 (Int.floor (W / 30))
    ∧ (createParticles rand W s).particles =
        (List.range (particleCount W).toNat).map (newParticle rand s.particleCanvas)
    ∧ ((handleResize rand W H s).particles.length : Int) = min 50 (Int.floor (W / 30)) :=
  ⟨createParticles_length rand W s hW, createParticles_particles rand W s,
    createParticles_length rand W _ hW⟩

/-- C2. In a visible frame of `animateParticles` (with a canvas context), every
particle is first advanced and wrapped and only then passed to the mouse
interaction; the wrap sets `x` to the canvas width when `x + vx < 0`, to 0 when
`x + vx` exceeds the canvas width, and leaves `x + vx` otherwise, likewise for `y`
against the canvas height; and the frame keeps the number of particles. -/
theorem animateParticles_wrap (rand : Nat → K) (sqrt : K → K) (s : PortfolioApp K)
    (hctx : s.particleCtx = true) (hw : 0 ≤ s.particleCanvas.width)
    (hh : 0 ≤ s.particleCanvas.height) :
    (animateParticles rand sqrt false s).app.particles =
        s.particles.map
          (fun p => mouseInteraction sqrt s.mousePos (advanceAndWrap s.particleCanvas p))
    ∧ (animateParticles rand sqrt false s).app.particles.length = s.particles.length
    ∧ ∀ p : Particle K,
        (p.x + p.vx < 0 → (advanceAndWrap s.particleCanvas p).x = s.particleCanvas.width)
        ∧ (p.x + p.vx > s.particleCanvas.width → (advanceAndWrap s.particleCanvas p).x = 0)
        ∧ (0 ≤ p.x + p.vx → p.x + p.vx ≤ s.particleCanvas.width →
            (advanceAndWrap s.particleCanvas p).x = p.x + p.vx)
        ∧ (p.y + p.vy < 0 → (advanceAndWrap s.particleCanvas p).y = s.particleCanvas.height)
        ∧ (p.y + p.vy > s.particleCanvas.height → (advanceAndWrap s.particleCanvas p).y = 0)
        ∧ (0 ≤ p.y + p.vy → p.y + p.vy ≤ s.particleCanvas.height →
            (advanceAndWrap s.particleCanvas p).y = p.y + p.vy) := by
  refine ⟨?_, ?_, ?_⟩
  · rw [animateParticles_particles rand sqrt s hctx]; rfl
  · rw [animateParticles_particles rand sqrt s hctx, List.length_map]
  · intro p
    rw [advanceAndWrap_x _ p, advanceAndWrap_y _ p]
    refine ⟨?_, ?_, ?_, ?_, ?_, ?_⟩
    · intro h; simp [h]
    · intro h; simp [h, not_lt.mpr (le_trans hw (le_of_lt h))]
    · intro h0 h1; simp [not_lt.mpr h0, not_lt.mpr h1]
    · intro h; simp [h]
    · intro h; simp [h, not_lt.mpr (le_trans hh (le_of_lt h))]
    · intro h0 h1; simp [not_lt.mpr h0, not_lt.mpr h1]

/-- C3. In a visible frame of `animateParticles` (with a canvas context) the mouse
interaction is applied to the particle at its position `(x, y)` after the wrap:
with `dx = mx - x`, `dy = my - y` and `d = sqrt(dx * dx + dy * dy)`, the particle
moves to `(x - dx * ((100 - d) / 100) * 0.01, y - dy * ((100 - d) / 100) * 0.01)`
when `d < 100` and is left where it is when `d ≥ 100`. -/
theorem animateParticles_repulsion (rand : Nat → K) (sqrt : K → K) (s : PortfolioApp K)
    (hctx : s.particleCtx = true) :
    (animateParticles rand sqrt false s).app.particles =
        s.particles.map
          (fun p => mouseInteraction sqrt s.mousePos (advanceAndWrap s.particleCanvas p))
    ∧ ∀ q : Particle K,
        (sqrt ((s.mousePos.x - q.x) * (s.mousePos.x - q.x)
              + (s.mousePos.y - q.y) * (s.mousePos.y - q.y)) < 100 →
          (mouseInteraction sqrt s.mousePos q).x =
              q.x - (s.mousePos.x - q.x)
                * ((100 - sqrt ((s.mousePos.x - q.x) * (s.mousePos.x - q.x)
                    + (s.mousePos.y - q.y) * (s.mousePos.y - q.y))) / 100) * 0.01
          ∧ (mouseInteraction sqrt s.mousePos q).y =
              q.y - (s.mousePos.y - q.y)
                * ((100 - sqrt ((s.mousePos.x - q.x) * (s.mousePos.x - q.x)
                    + (s.mousePos.y - q.y) * (s.mousePos.y - q.y))) / 100) * 0.01)
        ∧ (100 ≤ sqrt ((s.mousePos.x - q.x) * (s.mousePos.x - q.x)
              + (s.mousePos.y - q.y) * (s.mousePos.y - q.y)) →
          (mouseInteraction sqrt s.mousePos q).x = q.x
          ∧ (mouseInteraction sqrt s.mousePos q).y = q.y) := by
  refine ⟨?_, ?_⟩
  · rw [animateParticles_particles rand sqrt s hctx]; rfl
  · intro q
    refine ⟨?_, ?_⟩
    · intro h; simp [mouseInteraction, h]
    · intro h; simp [mouseInteraction, not_lt.mpr h]

/-- C4, as amended. A frame callback of `animateParticles` while the tab is hidden
does nothing but reschedule itself: nothing is drawn and the state, particle
positions included, is left exactly as it was. -/
theorem animateParticles_hidden (rand : Nat → K) (sqrt : K → K) (s : PortfolioApp K) :
    animateParticles rand sqrt true s = { app := s, drawn := [], rescheduled := true } := by
  simp [animateParticles]

/-- C5. When every random draw lies in `[0, 1)` (and the canvas has non-negative
width and height), every particle made by `createParticles` has `vx` and `vy` in
`[-0.25, 0.25]`, `size` in `[1, 3]`, `opacity` in `[0.2, 0.7]`, `x` in
`[0, canvas width]` and `y` in `[0, canvas height]`, and the `i`-th particle is of
type 'code' exactly when its type draw, draw `7 * i + 6`, exceeds 0.8, and of type
'dot' otherwise. -/
theorem createParticles_ranges (rand : Nat → K) (W : K) (s : PortfolioApp K)
    (hrand : ∀ i, 0 ≤ rand i ∧ rand i < 1)
    (hw : 0 ≤ s.particleCanvas.width) (hh : 0 ≤ s.particleCanvas.height)
    (i : Nat) (p : Particle K) (hp : (createParticles rand W s).particles.get? i = some p) :
    (-0.25 ≤ p.vx ∧ p.vx ≤ 0.25) ∧ (-0.25 ≤ p.vy ∧ p.vy ≤ 0.25)
    ∧ (1 ≤ p.size ∧ p.size ≤ 3) ∧ (0.2 ≤ p.opacity ∧ p.opacity ≤ 0.7)
    ∧ (0 ≤ p.x ∧ p.x ≤ s.particleCanvas.width)
    ∧ (0 ≤ p.y ∧ p.y ≤ s.particleCanvas.height)
    ∧ (p.type = ParticleType.code ↔ rand (7 * i + 6) > 0.8)
    ∧ (p.type = ParticleType.dot ↔ ¬ rand (7 * i + 6) > 0.8) := by
  have hpi := createParticles_at rand W s i p hp
  obtain ⟨h1, h2, h3, h4, h5, h6⟩ := newParticle_ranges rand s.particleCanvas i hrand hw hh
  subst hpi
  refine ⟨h1, h2, h3, h4, h5, h6, ?_, ?_⟩
  · by_cases h : rand (7 * i + 6) > 0.8 <;> simp [newParticle, h]
  · by_cases h : rand (7 * i + 6) > 0.8 <;> simp [newParticle, h]

end Claims

/-! ## Mouse trail -/

/-- C6. Starting from an empty trail, after any sequence of `updateMousePosition`
calls and `animateMouseTrail` frames, hidden or visible, the trail holds at most
20 points. -/
theorem trail_length_le_twenty {F : Type} [LinearOrderedField F] (s : PortfolioApp F)
    (events : List (TrailEvent F)) (h : s.trail = []) :
    (runTrail s events).trail.length ≤ 20 :=
  runTrail_length_le events s (by simp [h])

/-- C7. On a trail of at most 20 points, `updateMousePosition` at `(x, y)` at time
`T` sets the pointer position to `(x, y)` and appends `(x, y, T)` to the trail; when
the trail already held 20 points its first (oldest inserted) point is removed,
whatever the recorded times. -/
theorem updateMousePosition_fifo {F : Type} (x y : F) (T : Int) (s : PortfolioApp F)
    (h : s.trail.length ≤ 20) :
    (updateMousePosition x y T s).mousePos = { x := x, y := y }
    ∧ (updateMousePosition x y T s).trail =
        if s.trail.length < 20 then s.trail ++ [{ x := x, y := y, time := T }]
        else s.trail.tail ++ [{ x := x, y := y, time := T }] :=
  ⟨rfl, updateMousePosition_trail x y T s h⟩

/-- C8. After a visible `animateMouseTrail` frame (with a canvas context) at time
`now`, the trail is the earlier trail filtered by `now - time < 500`: a sub-list in
the original order, in which no point has age 500 or more and from which no point
younger than 500 is missing. -/
theorem animateMouseTrail_prunes {F : Type} [LinearOrderedField F] (now : Int)
    (s : PortfolioApp F) (hctx : s.trailCtx = true) :
    (animateMouseTrail false now s).app.trail =
        s.trail.filter (fun point => decide (now - point.time < 500))
    ∧ List.Sublist (animateMouseTrail false now s).app.trail s.trail
    ∧ (∀ point ∈ (animateMouseTrail false now s).app.trail, ¬ 500 ≤ now - point.time)
    ∧ (∀ point ∈ s.trail, now - point.time < 500 →
        point ∈ (animateMouseTrail false now s).app.trail) := by
  have heq : (animateMouseTrail false now s).app.trail =
      s.trail.filter (fun point => decide (now - point.time < 500)) := by
    simp [animateMouseTrail, hctx]
  refine ⟨heq, ?_, ?_, ?_⟩
  · rw [heq]; exact List.filter_sublist _
  · intro point hmem
    rw [heq, List.mem_filter] at hmem
    simpa using hmem.2
  · intro point hmem hage
    rw [heq, List.mem_filter]
    exact ⟨hmem, by simpa using hage⟩

/-- C9. An `animateMouseTrail` frame while the tab is hidden, or without a canvas
context, leaves the state unchanged (the trail is not pruned) and draws nothing. -/
theorem animateMouseTrail_hidden {F : Type} [LinearOrderedField F] (hidden : Bool) (now : Int)
    (s : PortfolioApp F) :
    animateMouseTrail true now s = { app := s, drawn := [], rescheduled := true }
    ∧ animateMouseTrail hidden now { s with trailCtx := false } =
        { app := { s with trailCtx := false }, drawn := [], rescheduled := true } := by
  simp [animateMouseTrail]

/-- C10, as amended. A visible `animateMouseTrail` frame (with a canvas context)
clears the canvas and then draws, in order, every point that remains after the
pruning except the last one, each with opacity `max(0, 1 - age / 500)` where
`age = now - time`; when one point or none remains, no point is drawn. -/
theorem animateMouseTrail_draws {F : Type} [LinearOrderedField F] (now : Int)
    (s : PortfolioApp F) (hctx : s.trailCtx = true) :
    (animateMouseTrail false now s).drawn =
      DrawCmd.clearCanvas ::
        (animateMouseTrail false now s).app.trail.dropLast.map
          (fun point =>
            DrawCmd.arc point.x point.y 1 (max 0 (1 - ((now - point.time : Int) : F) / 500))) := by
  have hfun : (fun point : TrailPoint F =>
      DrawCmd.arc point.x point.y 1 (max 0 (1 - ((now - point.time : Int) : F) / 500)))
      = drawTrailPoint now := by
    funext point
    rfl
  rw [hfun]
  simp [animateMouseTrail, hctx, drawTrail_eq]


/-- C1 at a window 95 pixels wide over a state that already holds a particle. -/
theorem createParticles_count_witness :
    (0 : ℚ) ≤ 95
    ∧ (((createParticles randQ 95 (sampleApp [dotAt 1 1 0 0] [])).particles.length : Int)
          = min 50 (Int.floor ((95 : ℚ) / 30))
        ∧ (createParticles randQ 95 (sampleApp [dotAt 1 1 0 0] [])).particles =
            (List.range (particleCount (95 : ℚ)).toNat).map
              (newParticle randQ (sampleApp [dotAt 1 1 0 0] []).particleCanvas)
        ∧ ((handleResize randQ 95 600 (sampleApp [dotAt 1 1 0 0] [])).particles.length : Int)
          = min 50 (Int.floor ((95 : ℚ) / 30))) :=
  ⟨by norm_num, createParticles_count randQ 95 600 (sampleApp [dotAt 1 1 0 0] []) (by norm_num)⟩

/-- C2 on a frame with one particle leaving by the left edge and one by the bottom. -/
theorem animateParticles_wrap_witness :
    (sampleApp [dotAt 1 1 (-2) 0, dotAt 5 599 0 2] []).particleCtx = true
    ∧ (0 : ℚ) ≤ (sampleApp [dotAt 1 1 (-2) 0, dotAt 5 599 0 2] []).particleCanvas.width
    ∧ (0 : ℚ) ≤ (sampleApp [dotAt 1 1 (-2) 0, dotAt 5 599 0 2] []).particleCanvas.height
    ∧ (animateParticles randQ sqrtQ false
          (sampleApp [dotAt 1 1 (-2) 0, dotAt 5 599 0 2] [])).app.particles.length
        = (sampleApp [dotAt 1 1 (-2) 0, dotAt 5 599 0 2] []).particles.length :=
  ⟨rfl, by norm_num [sampleApp], by norm_num [sampleApp],
    (animateParticles_wrap randQ sqrtQ (sampleApp [dotAt 1 1 (-2) 0, dotAt 5 599 0 2] []) rfl
      (by norm_num [sampleApp]) (by norm_num [sampleApp])).2.1⟩

/-- C3 on a frame with one particle 50 pixels from the pointer. -/
theorem animateParticles_repulsion_witness :
    (sampleApp [dotAt 30 40 0 0] []).particleCtx = true
    ∧ (animateParticles randQ sqrtQ false (sampleApp [dotAt 30 40 0 0] [])).app.particles =
        (sampleApp [dotAt 30 40 0 0] []).particles.map
          (fun p => mouseInteraction sqrtQ (sampleApp [dotAt 30 40 0 0] []).mousePos
            (advanceAndWrap (sampleApp [dotAt 30 40 0 0] []).particleCanvas p)) :=
  ⟨rfl, (animateParticles_repulsion randQ sqrtQ (sampleApp [dotAt 30 40 0 0] []) rfl).1⟩

/-- C4 as stated fails: in a hidden frame a particle at `x = 400` with `vx = 1/4` is
not advanced to `400.25`; the positions after the frame are not the advanced and
wrapped ones. -/
theorem animateParticles_hidden_not_advanced :
    ¬ ((animateParticles randQ sqrtQ true (sampleApp [dotAt 400 300 (1 / 4) 0] [])).app.particles
          = (sampleApp [dotAt 400 300 (1 / 4) 0] []).particles.map
              (advanceAndWrap (sampleApp [dotAt 400 300 (1 / 4) 0] []).particleCanvas)) := by
  norm_num [animateParticles, sampleApp, dotAt, advanceAndWrap]

/-- C5 for the first particle made in a window 95 pixels wide. -/
theorem createParticles_ranges_witness :
    (∀ i, 0 ≤ randQ i ∧ randQ i < 1)
    ∧ (0 : ℚ) ≤ (sampleApp [] []).particleCanvas.width
    ∧ (0 : ℚ) ≤ (sampleApp [] []).particleCanvas.height
    ∧ (createParticles randQ 95 (sampleApp [] [])).particles.get? 0
        = some (newParticle randQ (sampleApp [] []).particleCanvas 0)
    ∧ ((newParticle randQ (sampleApp [] []).particleCanvas 0).type = ParticleType.code
        ↔ randQ (7 * 0 + 6) > 0.8) :=
  ⟨randQ_range, by norm_num [sampleApp], by norm_num [sampleApp],
    by rw [createParticles_particles]; norm_num [particleCount],
    (createParticles_ranges randQ 95 (sampleApp [] []) randQ_range (by norm_num [sampleApp])
      (by norm_num [sampleApp]) 0 (newParticle randQ (sampleApp [] []).particleCanvas 0)
      (by rw [createParticles_particles]; norm_num [particleCount])).2.2.2.2.2.2.1⟩

/-- C6 after 25 pointer moves and a visible frame. -/
theorem trail_length_le_twenty_witness :
    (sampleApp [] []).trail = []
    ∧ (runTrail (sampleApp [] [])
          ((List.range 25).map (fun (i : Nat) => TrailEvent.mouseMove (i : ℚ) 0 (i : Int))
            ++ [TrailEvent.frame false 30])).trail.length ≤ 20 :=
  ⟨rfl, trail_length_le_twenty (sampleApp [] []) _ rfl⟩

/-- C7 on a full trail of 20 points. -/
theorem updateMousePosition_fifo_witness :
    (sampleApp [] (sampleTrail 20)).trail.length ≤ 20
    ∧ (updateMousePosition 7 8 99 (sampleApp [] (sampleTrail 20))).trail =
        if (sampleApp [] (sampleTrail 20)).trail.length < 20
        then (sampleApp [] (sampleTrail 20)).trail ++ [{ x := 7, y := 8, time := 99 }]
        else (sampleApp [] (sampleTrail 20)).trail.tail ++ [{ x := 7, y := 8, time := 99 }] :=
  ⟨by simp [sampleApp, sampleTrail],
    (updateMousePosition_fifo 7 8 99 (sampleApp [] (sampleTrail 20))
      (by simp [sampleApp, sampleTrail])).2⟩

/-- C8 on a trail of three points, the first of them older than 500ms. -/
theorem animateMouseTrail_prunes_witness :
    (sampleApp [] (sampleTrail 3)).trailCtx = true
    ∧ (animateMouseTrail false 501 (sampleApp [] (sampleTrail 3))).app.trail =
        (sampleApp [] (sampleTrail 3)).trail.filter
          (fun point => decide ((501 : Int) - point.time < 500)) :=
  ⟨rfl, (animateMouseTrail_prunes 501 (sampleApp [] (sampleTrail 3)) rfl).1⟩

/-- C10 as stated fails: with a single point left after the pruning, the visible
frame draws no point, so what is drawn is not the pruned trail. -/
theorem animateMouseTrail_single_point_not_drawn :
    ¬ ((animateMouseTrail false 100 (sampleApp [] (sampleTrail 1))).drawn =
        DrawCmd.clearCanvas ::
          (animateMouseTrail false 100 (sampleApp [] (sampleTrail 1))).app.trail.map
            (fun point =>
              DrawCmd.arc point.x point.y 1
                (max 0 (1 - (((100 : Int) - point.time : Int) : ℚ) / 500)))) := by
  simp [animateMouseTrail, sampleApp, sampleTrail, drawTrail, List.range_succ]

/-- C10, as amended, on a trail of three points. -/
theorem animateMouseTrail_draws_witness :
    (sampleApp [] (sampleTrail 3)).trailCtx = true
    ∧ (animateMouseTrail false 100 (sampleApp [] (sampleTrail 3))).drawn =
        DrawCmd.clearCanvas ::
          (animateMouseTrail false 100 (sampleApp [] (sampleTrail 3))).app.trail.dropLast.map
            (fun point =>
              DrawCmd.arc point.x point.y 1
                (max 0 (1 - (((100 : Int) - point.time : Int) : ℚ) / 500))) :=
  ⟨rfl, animateMouseTrail_draws 100 (sampleApp [] (sampleTrail 3)) rfl⟩

/-! ## Lemmas on the terminal -/

theorem removeFirst_append (pattern rest : List Char) (h : pattern ≠ []) :
    removeFirst pattern (pattern ++ rest) = rest := by
  cases pattern with
  | nil => exact absurd rfl h
  | cons c cs =>
    have hp : (c :: cs).isPrefixOf (c :: (cs ++ rest)) = true := by
      rw [List.isPrefixOf_iff_prefix]
      exact List.prefix_append (c :: cs) rest
    have hd : List.drop (c :: cs).length (c :: (cs ++ rest)) = rest :=
      List.drop_left (c :: cs) rest
    rw [List.cons_append, removeFirst, if_pos hp, hd]

theorem addTerminalLine_command (command : String) (lines : List TerminalLine) :
    addTerminalLine ("claude-code $ " ++ command) LineKind.command (some lines) =
      some (lines ++ [{ kind := LineKind.command, text := command }]) := by
  have h : jsReplaceEmpty ("claude-code $ " ++ command) "claude-code $ " = command := by
    unfold jsReplaceEmpty
    rw [String.data_append, removeFirst_append _ _ (by decide)]
  simp [addTerminalLine, h]

theorem addTerminalLine_output (text : String) (lines : List TerminalLine) :
    addTerminalLine text LineKind.output (some lines) =
      some (lines ++ [{ kind := LineKind.output, text := text }]) := by
  simp [addTerminalLine]

theorem addTerminalLine_error (text : String) (lines : List TerminalLine) :
    addTerminalLine text LineKind.error (some lines) =
      some (lines ++ [{ kind := LineKind.error, text := text }]) := by
  simp [addTerminalLine]

theorem jsStartsWith_append (searchString rest : String) :
    jsStartsWith (searchString ++ rest) searchString = true := by
  unfold jsStartsWith
  rw [String.data_append, List.isPrefixOf_iff_prefix]
  exact List.prefix_append _ _

theorem jsSubstring_append (head rest : String) :
    jsSubstring (head ++ rest) head.data.length = rest := by
  unfold jsSubstring
  rw [String.data_append, List.drop_left]

theorem terminalCommands_no_echo {F : Type} [LinearOrderedField F] [FloorRing F]
    (p : String × CommandValue F) (hp : p ∈ terminalCommands (K := F)) :
    jsStartsWith p.1 "echo " = false := by
  simp [terminalCommands] at hp
  rcases hp with hp | hp | hp | hp | hp | hp | hp | hp | hp | hp | hp | hp <;>
    (subst hp; rfl)

theorem objectPrototype_no_echo {F : Type} [LinearOrderedField F]
    (p : String × CommandValue F) (hp : p ∈ objectPrototype (K := F)) :
    jsStartsWith p.1 "echo " = false := by
  simp [objectPrototype] at hp
  rcases hp with hp | hp | hp | hp | hp | hp | hp | hp | hp | hp | hp | hp <;>
    (subst hp; rfl)

theorem getProperty_echo {F : Type} [LinearOrderedField F] [FloorRing F] (command : String)
    (h : jsStartsWith command "echo " = true) : getProperty (K := F) command = none := by
  have hown : ∀ p ∈ terminalCommands (K := F), (command != p.1) = true := by
    intro p hp
    rw [bne_iff_ne]
    intro heq
    have hk := terminalCommands_no_echo p hp
    rw [← heq, h] at hk
    exact absurd hk (by decide)
  have hproto : ∀ p ∈ objectPrototype (K := F), (command != p.1) = true := by
    intro p hp
    rw [bne_iff_ne]
    intro heq
    have hk := objectPrototype_no_echo p hp
    rw [← heq, h] at hk
    exact absurd hk (by decide)
  unfold getProperty
  rw [List.lookup_eq_none_iff.mpr hown, List.lookup_eq_none_iff.mpr hproto]

/-! ## Scripted terminal -/

theorem terminalCommands_entry {F : Type} [LinearOrderedField F] [FloorRing F]
    (env : TerminalEnv F) (command : String) (value : CommandValue F)
    (hmem : (command, value) ∈ terminalCommands (K := F)) (hne : command ≠ "clear") :
    getProperty command = some value ∧ isTruthy (some value) = true
      ∧ ∃ text, outputText env (some value) = some text := by
  simp only [terminalCommands, List.mem_cons, Prod.mk.injEq, List.mem_singleton,
    List.not_mem_nil, or_false] at hmem
  rcases hmem with h | h | h | h | h | h | h | h | h | h | h | h <;>
    obtain ⟨hc, hv⟩ := h <;> subst hc <;> subst hv
  all_goals first
    | exact absurd rfl hne
    | exact ⟨by simp [getProperty, terminalCommands, List.lookup], by simp [isTruthy],
        _, rfl⟩

theorem executeTerminalCommand_of_property {F : Type} [LinearOrderedField F] [FloorRing F]
    (env : TerminalEnv F) (command text : String) (log : List TerminalLine)
    (hne : command ≠ "clear") (htruthy : isTruthy (getProperty (K := F) command) = true)
    (hout : outputText env (getProperty command) = some text) :
    executeTerminalCommand env command (some log) =
      { content := some (log ++ [{ kind := LineKind.command, text := command },
          { kind := LineKind.output, text := text }])
        threw := false } := by
  simp [executeTerminalCommand, hne, htruthy, hout, addTerminalLine_command,
    addTerminalLine_output]

theorem terminalKeydown_enter_echo {F : Type} [LinearOrderedField F] [FloorRing F]
    (trim toLowerCase : String → String) (env : TerminalEnv F)
    (value : String) (log : List TerminalLine)
    (h : jsStartsWith (toLowerCase (trim value)) "echo " = true) :
    terminalKeydown trim toLowerCase env "Enter" value (some log) =
      ("", { content := some (log ++
                [{ kind := LineKind.command, text := toLowerCase (trim value) },
                 { kind := LineKind.output, text := jsSubstring (toLowerCase (trim value)) 5 }])
             threw := false }) := by
  have hne : toLowerCase (trim value) ≠ "clear" := by
    intro hc
    rw [hc] at h
    exact absurd h (by decide)
  simp [terminalKeydown, executeTerminalCommand, hne, getProperty_echo _ h, isTruthy, h,
    addTerminalLine_command, addTerminalLine_output]

theorem fragmentTextFrom_plain (cs : List Char) (h : cs.all isPlainChar = true) :
    fragmentTextFrom MarkupState.outside cs = some cs := by
  induction cs with
  | nil => rfl
  | cons c rest ih =>
    rw [List.all_cons, Bool.and_eq_true] at h
    have hc : c ≠ '<' := by
      intro hlt
      subst hlt
      exact absurd h.1 (by decide)
    simp [fragmentTextFrom, hc, h.1, ih h.2]

theorem shownText_plain (kind : LineKind) (text : String) (h : isPlainText text = true) :
    shownText { kind := kind, text := text } = some text := by
  unfold shownText
  rw [fragmentTextFrom_plain _ h]
  rfl

theorem isPlainText_substring (s : String) (n : Nat) (h : isPlainText s = true) :
    isPlainText (jsSubstring s n) = true := by
  unfold isPlainText at h ⊢
  unfold jsSubstring
  rw [List.all_eq_true] at h ⊢
  intro c hc
  exact h c (List.mem_of_mem_drop hc)

theorem executeTerminalCommand_echo_line {F : Type} [LinearOrderedField F] [FloorRing F]
    (env : TerminalEnv F) (command : String) (log : List TerminalLine)
    (h : jsStartsWith command "echo " = true) :
    executeTerminalCommand env command (some log) =
      { content := some (log ++ [{ kind := LineKind.command, text := command },
          { kind := LineKind.output, text := jsSubstring command 5 }])
        threw := false } := by
  have hne : command ≠ "clear" := by
    intro hc
    rw [hc] at h
    exact absurd h (by decide)
  simp [executeTerminalCommand, hne, getProperty_echo _ h, isTruthy, h,
    addTerminalLine_command, addTerminalLine_output]

theorem executeTerminalCommand_appends {F : Type} [LinearOrderedField F] [FloorRing F]
    (env : TerminalEnv F) (command : String)
    (log : List TerminalLine) (hne : command ≠ "clear") :
    ∃ rest : List TerminalLine, rest.length ≤ 1
      ∧ (executeTerminalCommand env command (some log)).content =
          some (log ++ { kind := LineKind.command, text := command } :: rest) := by
  by_cases ht : isTruthy (getProperty (K := F) command) = true
  · cases ho : outputText env (getProperty command) with
    | some output =>
      exact ⟨[{ kind := LineKind.output, text := output }], by simp,
        by rw [executeTerminalCommand_of_property env command output log hne ht ho]⟩
    | none =>
      exact ⟨[], by simp,
        by simp [executeTerminalCommand, hne, ht, ho, addTerminalLine_command]⟩
  · by_cases he : jsStartsWith command "echo " = true
    · exact ⟨[{ kind := LineKind.output, text := jsSubstring command 5 }], by simp,
        by simp [executeTerminalCommand, hne, ht, he, addTerminalLine_command,
          addTerminalLine_output]⟩
    · by_cases hc : command = ""
      · subst hc
        have h := addTerminalLine_command "" log
        simp only [String.append_empty] at h
        exact ⟨[], by simp,
          by simp [executeTerminalCommand, h, getProperty, terminalCommands, objectPrototype,
            List.lookup, isTruthy, jsStartsWith]⟩
      · exact ⟨[{ kind := LineKind.error
                  text := "Command not found: " ++ command
                    ++ ". Type \"help\" for available commands." }], by simp,
          by simp [executeTerminalCommand, hne, ht, he, hc, addTerminalLine_command,
            addTerminalLine_error]⟩

section TerminalClaims

variable {K : Type} [LinearOrderedField K] [FloorRing K]

/-- C11. On every terminal log, `executeTerminalCommand("clear")` leaves exactly
one line, of kind output, with the text
'claude-code $ Welcome back! Type "help" for available commands.': neither the
earlier lines nor the command line of "clear" remain. -/
theorem executeTerminalCommand_clear (env : TerminalEnv K) (log : List TerminalLine) :
    executeTerminalCommand env "clear" (some log) =
      { content := some
          [{ kind := LineKind.output
             text := "claude-code $ Welcome back! Type \"help\" for available commands." }]
        threw := false } := by
  simp [executeTerminalCommand, addTerminalLine_output]

/-- C12. For every own key of the command table other than "clear",
`executeTerminalCommand` appends the command line and then exactly one output line,
whose text is the static string of the key, or what the producer returns when the
entry is a function; for "random" with a draw in `[0, 1)` that text is an integer
of `[0, 1000)`, and for "help" it is
'Available commands: help, projects, skills, joke, clear, whoami, claude'. -/
theorem executeTerminalCommand_table (env : TerminalEnv K) (log : List TerminalLine)
    (hr : 0 ≤ env.random ∧ env.random < 1) :
    (∀ (command : String) (value : CommandValue K),
        (command, value) ∈ terminalCommands (K := K) → command ≠ "clear" →
        ∃ text : String,
          (∀ s, value = CommandValue.text s → text = s)
          ∧ (∀ call, value = CommandValue.producer call → call env = some text)
          ∧ executeTerminalCommand env command (some log) =
              { content := some (log ++ [{ kind := LineKind.command, text := command },
                  { kind := LineKind.output, text := text }])
                threw := false })
    ∧ (∃ n : Int, 0 ≤ n ∧ n < 1000
        ∧ executeTerminalCommand env "random" (some log) =
            { content := some (log ++ [{ kind := LineKind.command, text := "random" },
                { kind := LineKind.output, text := toString n }])
              threw := false })
    ∧ executeTerminalCommand env "help" (some log) =
        { content := some (log ++ [{ kind := LineKind.command, text := "help" },
            { kind := LineKind.output
              text := "Available commands: help, projects, skills, joke, clear, whoami, claude" }])
          threw := false } := by
  refine ⟨?_, ?_, ?_⟩
  · intro command value hmem hne
    obtain ⟨hget, htruthy, text, hout⟩ := terminalCommands_entry env command value hmem hne
    refine ⟨text, ?_, ?_, ?_⟩
    · intro s hs
      subst hs
      simpa [outputText] using hout.symm
    · intro call hc
      subst hc
      simpa [outputText] using hout
    · exact executeTerminalCommand_of_property env command text log hne
        (by rw [hget]; exact htruthy) (by rw [hget]; exact hout)
  · refine ⟨Int.floor (env.random * 1000), ?_, ?_, ?_⟩
    · exact Int.floor_nonneg.mpr (mul_nonneg hr.1 (by norm_num))
    · rw [Int.floor_lt]
      push_cast
      nlinarith [hr.2]
    · exact executeTerminalCommand_of_property env "random" _ log (by decide)
        (by simp [getProperty, terminalCommands, List.lookup, isTruthy])
        (by simp [getProperty, terminalCommands, List.lookup, outputText])
  · exact executeTerminalCommand_of_property env "help" _ log (by decide)
      (by simp [getProperty, terminalCommands, List.lookup, isTruthy])
      (by simp [getProperty, terminalCommands, List.lookup, outputText])

/-- C13, as amended. For every string `s` of plain characters (no `<`, no `&`, no
carriage return, no null character), `executeTerminalCommand("echo " + s)` appends
the command line and then exactly one output line, into which `s`, the command
without its first five characters, is interpolated and which shows exactly `s`;
"echo hello world" shows "hello world". -/
theorem executeTerminalCommand_echo (env : TerminalEnv K) (s : String)
    (log : List TerminalLine) (hs : isPlainText s = true) :
    executeTerminalCommand env ("echo " ++ s) (some log) =
      { content := some (log ++ [{ kind := LineKind.command, text := "echo " ++ s },
          { kind := LineKind.output, text := s }])
        threw := false }
    ∧ shownText { kind := LineKind.output, text := s } = some s
    ∧ jsSubstring ("echo " ++ s) 5 = s
    ∧ executeTerminalCommand env "echo hello world" (some log) =
        { content := some (log ++ [{ kind := LineKind.command, text := "echo hello world" },
            { kind := LineKind.output, text := "hello world" }])
          threw := false }
    ∧ shownText { kind := LineKind.output, text := "hello world" } = some "hello world" := by
  have hstart : jsStartsWith ("echo " ++ s) "echo " = true := jsStartsWith_append "echo " s
  have hsub : jsSubstring ("echo " ++ s) 5 = s := jsSubstring_append "echo " s
  refine ⟨?_, shownText_plain LineKind.output s hs, hsub, ?_, by decide⟩
  · rw [executeTerminalCommand_echo_line env _ log hstart, hsub]
  · rw [executeTerminalCommand_echo_line env "echo hello world" log (by decide)]
    have : jsSubstring "echo hello world" 5 = "hello world" := by decide
    rw [this]

/-- C14, the code at the command "constructor". It is not empty, is not "clear",
is not an own key of the command table and does not start with "echo ", yet
`this.terminalCommands["constructor"]` is the inherited function `Object`, so the
command line is followed by the output line '[object Object]' and by no error line. -/
theorem executeTerminalCommand_constructor (env : TerminalEnv K) (log : List TerminalLine) :
    executeTerminalCommand env "constructor" (some log) =
      { content := some (log ++ [{ kind := LineKind.command, text := "constructor" },
          { kind := LineKind.output, text := "[object Object]" }])
        threw := false }
    ∧ (terminalCommands (K := K)).lookup "constructor" = none
    ∧ jsStartsWith "constructor" "echo " = false := by
  refine ⟨?_, ?_, ?_⟩
  · exact executeTerminalCommand_of_property env "constructor" _ log (by decide)
      (by simp [getProperty, terminalCommands, objectPrototype, List.lookup, isTruthy])
      (by simp [getProperty, terminalCommands, objectPrototype, List.lookup, outputText])
  · simp [terminalCommands, List.lookup]
  · rfl

/-- C15. On every terminal log, `executeTerminalCommand("")` appends exactly one
line, the command line with an empty command: no output line and no error line. -/
theorem executeTerminalCommand_empty (env : TerminalEnv K) (log : List TerminalLine) :
    executeTerminalCommand env "" (some log) =
      { content := some (log ++ [{ kind := LineKind.command, text := "" }])
        threw := false } := by
  have h := addTerminalLine_command "" log
  simp only [String.append_empty] at h
  simp [executeTerminalCommand, h, getProperty, terminalCommands, objectPrototype,
    List.lookup, isTruthy, jsStartsWith]

/-- C16, as amended. For every terminal log and every command other than "clear",
the log after `executeTerminalCommand` is the earlier log, unchanged, followed by
the command line, into which the command is interpolated and which shows exactly
the command when the command holds plain characters only, followed by at most one
further line. -/
theorem executeTerminalCommand_append_only (env : TerminalEnv K) (command : String)
    (log : List TerminalLine) (hne : command ≠ "clear") :
    (∃ rest : List TerminalLine, rest.length ≤ 1
      ∧ (executeTerminalCommand env command (some log)).content =
          some (log ++ { kind := LineKind.command, text := command } :: rest))
    ∧ (isPlainText command = true →
        shownText { kind := LineKind.command, text := command } = some command) :=
  ⟨executeTerminalCommand_appends env command log hne,
    fun hplain => shownText_plain LineKind.command command hplain⟩

/-- C17, as amended. When the trimmed, lower-cased text of the input field begins
with "echo " and holds plain characters only, pressing Enter appends the command
line and then an output line that shows that trimmed, lower-cased text without
its first five characters, and empties the field. -/
theorem terminalKeydown_echo (trim toLowerCase : String → String) (env : TerminalEnv K)
    (value : String) (log : List TerminalLine)
    (h : jsStartsWith (toLowerCase (trim value)) "echo " = true)
    (hplain : isPlainText (toLowerCase (trim value)) = true) :
    terminalKeydown trim toLowerCase env "Enter" value (some log) =
      ("", { content := some (log ++
                [{ kind := LineKind.command, text := toLowerCase (trim value) },
                 { kind := LineKind.output, text := jsSubstring (toLowerCase (trim value)) 5 }])
             threw := false })
    ∧ shownText { kind := LineKind.output, text := jsSubstring (toLowerCase (trim value)) 5 }
        = some (jsSubstring (toLowerCase (trim value)) 5) :=
  ⟨terminalKeydown_enter_echo trim toLowerCase env value log h,
    shownText_plain LineKind.output _ (isPlainText_substring _ 5 hplain)⟩

end TerminalClaims

/-- C12 for the environment `envQ` and a log of two lines. -/
theorem executeTerminalCommand_table_witness :
    ((0 : ℚ) ≤ envQ.random ∧ envQ.random < 1)
    ∧ executeTerminalCommand envQ "help" (some sampleLog) =
        { content := some (sampleLog ++ [{ kind := LineKind.command, text := "help" },
            { kind := LineKind.output
              text := "Available commands: help, projects, skills, joke, clear, whoami, claude" }])
          threw := false } :=
  ⟨by norm_num [envQ],
    (executeTerminalCommand_table envQ sampleLog (by norm_num [envQ])).2.2⟩

/-- C13, as amended, for the string "hello world". -/
theorem executeTerminalCommand_echo_witness :
    isPlainText "hello world" = true
    ∧ executeTerminalCommand envQ ("echo " ++ "hello world") (some sampleLog) =
        { content := some (sampleLog ++
            [{ kind := LineKind.command, text := "echo " ++ "hello world" },
             { kind := LineKind.output, text := "hello world" }])
          threw := false }
    ∧ shownText { kind := LineKind.output, text := "hello world" } = some "hello world" :=
  ⟨by decide, (executeTerminalCommand_echo envQ "hello world" sampleLog (by decide)).1,
    (executeTerminalCommand_echo envQ "hello world" sampleLog (by decide)).2.1⟩

/-- C13 as stated fails: for the string "<b>x</b>" the output line appended by
`executeTerminalCommand("echo <b>x</b>")` has the markup of a `b` element and
shows "x", not the string itself. -/
theorem executeTerminalCommand_echo_markup :
    (executeTerminalCommand envQ "echo <b>x</b>" (some [])).content =
        some [{ kind := LineKind.command, text := "echo <b>x</b>" },
              { kind := LineKind.output, text := "<b>x</b>" }]
    ∧ jsSubstring "echo <b>x</b>" 5 = "<b>x</b>"
    ∧ shownText { kind := LineKind.output, text := "<b>x</b>" } = some "x"
    ∧ ¬ (shownText { kind := LineKind.output, text := "<b>x</b>" } = some "<b>x</b>") := by
  refine ⟨?_, by decide, by decide, by decide⟩
  rw [executeTerminalCommand_echo_line envQ "echo <b>x</b>" [] (by decide)]
  decide

/-- C16, as amended, for the command "nonexistent". -/
theorem executeTerminalCommand_append_only_witness :
    "nonexistent" ≠ "clear"
    ∧ (∃ rest : List TerminalLine, rest.length ≤ 1
      ∧ (executeTerminalCommand envQ "nonexistent" (some sampleLog)).content =
          some (sampleLog ++ { kind := LineKind.command, text := "nonexistent" } :: rest))
    ∧ (isPlainText "nonexistent" = true →
        shownText { kind := LineKind.command, text := "nonexistent" } = some "nonexistent") :=
  ⟨by decide, executeTerminalCommand_append_only envQ "nonexistent" sampleLog (by decide)⟩

/-- C16 as stated fails: the command "echo <b>x</b>" is not "clear", and the
command line appended for it shows "echo x", not the command. -/
theorem executeTerminalCommand_command_markup :
    "echo <b>x</b>" ≠ "clear"
    ∧ (executeTerminalCommand envQ "echo <b>x</b>" (some sampleLog)).content =
        some (sampleLog ++ [{ kind := LineKind.command, text := "echo <b>x</b>" },
              { kind := LineKind.output, text := "<b>x</b>" }])
    ∧ shownText { kind := LineKind.command, text := "echo <b>x</b>" } = some "echo x"
    ∧ ¬ (shownText { kind := LineKind.command, text := "echo <b>x</b>" }
          = some "echo <b>x</b>") := by
  refine ⟨by decide, ?_, by decide, by decide⟩
  rw [executeTerminalCommand_echo_line envQ "echo <b>x</b>" sampleLog (by decide)]
  have : jsSubstring "echo <b>x</b>" 5 = "<b>x</b>" := by decide
  rw [this]

/-- C17, as amended, for the typed text "  Echo Hi ". -/
theorem terminalKeydown_echo_witness :
    jsStartsWith (asciiLower (asciiTrim "  Echo Hi ")) "echo " = true
    ∧ isPlainText (asciiLower (asciiTrim "  Echo Hi ")) = true
    ∧ terminalKeydown asciiTrim asciiLower envQ "Enter" "  Echo Hi " (some sampleLog) =
        ("", { content := some (sampleLog ++
                  [{ kind := LineKind.command, text := asciiLower (asciiTrim "  Echo Hi ") },
                   { kind := LineKind.output
                     text := jsSubstring (asciiLower (asciiTrim "  Echo Hi ")) 5 }])
               threw := false })
    ∧ shownText { kind := LineKind.output
                  text := jsSubstring (asciiLower (asciiTrim "  Echo Hi ")) 5 }
        = some (jsSubstring (asciiLower (asciiTrim "  Echo Hi ")) 5) :=
  ⟨by decide, by decide,
    terminalKeydown_echo asciiTrim asciiLower envQ "  Echo Hi " sampleLog (by decide)
      (by decide)⟩

/-- C17 as stated fails: typing "echo Hi" and pressing Enter appends no output
line with the text "Hi", the remainder of the typed text; the line appended
reads and shows "hi". -/
theorem terminalKeydown_echo_not_verbatim :
    jsStartsWith "echo Hi" "echo " = true
    ∧ ¬ ({ kind := LineKind.output, text := jsSubstring "echo Hi" 5 } ∈
          ((terminalKeydown asciiTrim asciiLower envQ "Enter" "echo Hi" (some [])).2.content).getD [])
    ∧ (terminalKeydown asciiTrim asciiLower envQ "Enter" "echo Hi" (some [])).2.content =
        some [{ kind := LineKind.command, text := "echo hi" },
              { kind := LineKind.output, text := "hi" }]
    ∧ shownText { kind := LineKind.output, text := "hi" } = some "hi" := by
  have hl : asciiLower (asciiTrim "echo Hi") = "echo hi" := by decide
  have hs : jsStartsWith (asciiLower (asciiTrim "echo Hi")) "echo " = true := by
    rw [hl]; decide
  have hrun := terminalKeydown_enter_echo asciiTrim asciiLower envQ "echo Hi" [] hs
  rw [hl] at hrun
  refine ⟨by decide, ?_, ?_, by decide⟩
  · rw [hrun]
    decide
  · rw [hrun]
    decide

/-! ## Theme, contact form, validation script -/

theorem foldl_count_errors {α : Type} (p : α → Bool) (l : List α) (errors : Nat) :
    l.foldl (fun errors x => if p x then errors + 1 else errors) errors =
      errors + l.countP p := by
  induction l generalizing errors with
  | nil => simp
  | cons x xs ih =>
    rw [List.foldl_cons, ih, List.countP_cons]
    by_cases hx : p x = true
    · simp [hx]; omega
    · simp [hx]

theorem checkFiles_pos (fs : FileSystem) :
    0 < requiredFiles.foldl (checkFile fs) 0 ↔
      ∃ file ∈ requiredFiles, fs.existsSync file.1 = false := by
  have h : requiredFiles.foldl (checkFile fs) 0 =
      0 + requiredFiles.countP (fun file : String × String => !fs.existsSync file.1) :=
    foldl_count_errors (fun file : String × String => !fs.existsSync file.1) requiredFiles 0
  rw [h, Nat.zero_add, List.countP_pos_iff]
  simp

theorem validateManifest_pos (fs : FileSystem) (errors : Nat) :
    0 < validateManifest fs errors ↔
      0 < errors
      ∨ (fs.existsSync "manifest.json" = true
          ∧ (fs.manifest = none ∨ fs.manifest = some Json.null
              ∨ ∃ manifest, fs.manifest = some manifest
                  ∧ ∃ field ∈ requiredFields,
                      jsonTruthy (manifestField manifest field) = false)) := by
  have hfold : ∀ manifest : Json,
      0 < requiredFields.foldl
          (fun errors field =>
            if !jsonTruthy (manifestField manifest field) then errors + 1 else errors) errors ↔
        0 < errors ∨ ∃ field ∈ requiredFields,
          jsonTruthy (manifestField manifest field) = false := by
    intro manifest
    rw [foldl_count_errors (fun field => !jsonTruthy (manifestField manifest field))]
    rw [Nat.add_pos_iff_pos_or_pos, List.countP_pos_iff]
    simp
  unfold validateManifest
  by_cases hex : fs.existsSync "manifest.json" = true
  · rw [if_pos hex]
    cases hm : fs.manifest with
    | none => simp [hex]
    | some manifest =>
      cases manifest with
      | null => simp [hex]
      | bool b => simpa [hex] using hfold (Json.bool b)
      | number q => simpa [hex] using hfold (Json.number q)
      | string s => simpa [hex] using hfold (Json.string s)
      | array items => simpa [hex] using hfold (Json.array items)
      | object members => simpa [hex] using hfold (Json.object members)
  · rw [if_neg hex]
    simp [hex]

theorem exitCode_eq (errors warnings : Nat) :
    exitCode errors warnings = if 0 < errors then 1 else 0 := by
  unfold exitCode
  split <;> simp

/-- C18. When the theme is "dark" or "light", one click on the theme toggle sets
the theme to the other of the two and stores that same value, and a second click
brings the theme back to the original one, which is then also the stored value. -/
theorem themeToggleClick_twice (s : ThemeState)
    (h : s.dataTheme = some "dark" ∨ s.dataTheme = some "light") :
    (themeToggleClick (themeToggleClick s)).dataTheme = s.dataTheme
    ∧ (themeToggleClick (themeToggleClick s)).storedTheme = s.dataTheme
    ∧ (themeToggleClick s).dataTheme = (themeToggleClick s).storedTheme
    ∧ (s.dataTheme = some "dark" → (themeToggleClick s).dataTheme = some "light")
    ∧ (s.dataTheme = some "light" → (themeToggleClick s).dataTheme = some "dark") := by
  have hdata : ∀ t : ThemeState, (themeToggleClick t).dataTheme =
      some (if t.dataTheme = some "dark" then "light" else "dark") := by
    intro t
    unfold themeToggleClick updateThemeIcon
    cases t.themeIcon <;> rfl
  have hstored : ∀ t : ThemeState, (themeToggleClick t).storedTheme =
      some (if t.dataTheme = some "dark" then "light" else "dark") := by
    intro t
    unfold themeToggleClick updateThemeIcon
    cases t.themeIcon <;> rfl
  rcases h with h | h
  · simp [hdata, hstored, h]
  · simp [hdata, hstored, h]

/-- C19. For every draw `r`, `simulateFormSubmission` resolves when `r > 0.1` and
rejects with an error otherwise, nothing else; in the submit handler a resolve
shows the success status and resets the controls of the form, and a reject shows
the error status and leaves the controls as they were. -/
theorem submitHandler_outcomes {F : Type} [LinearOrderedField F] (r : F)
    (form : ContactForm) :
    simulateFormSubmission r =
        (if r > 0.1 then Except.ok () else Except.error "Submission failed")
    ∧ submitHandler r form =
        (if r > 0.1 then
          { controls := form.controls.map (fun c => { c with value := c.defaultValue })
            status :=
              { textContent := "Message sent successfully! I\x27ll get back to you soon."
                className := "form-status success visible" } }
        else
          { controls := form.controls
            status :=
              { textContent := "Failed to send message. Please try again or contact me directly."
                className := "form-status error visible" } }) := by
  refine ⟨rfl, ?_⟩
  by_cases h : r > 0.1
  · simp [submitHandler, simulateFormSubmission, h, showFormStatus, formReset]
  · simp [submitHandler, simulateFormSubmission, h, showFormStatus]

theorem validate_reads (fs : FileSystem) (warnings : Nat) :
    validate fs warnings =
      if readThrows fs "index.html" = true ∨ readThrows fs "css/styles.css" = true
          ∨ readThrows fs "js/main.js" = true ∨ readThrows fs "sw.js" = true then 1
      else exitCode (validateManifest fs (requiredFiles.foldl (checkFile fs) 0)) warnings := by
  unfold validate
  by_cases h1 : readThrows fs "index.html" = true
  · simp [h1]
  · by_cases h2 : readThrows fs "css/styles.css" = true
    · simp [h1, h2]
    · by_cases h3 : readThrows fs "js/main.js" = true
      · simp [h1, h2, h3]
      · by_cases h4 : readThrows fs "sw.js" = true
        · simp [h1, h2, h3, h4]
        · simp [h1, h2, h3, h4]

theorem readThrows_iff (fs : FileSystem) :
    (readThrows fs "index.html" = true ∨ readThrows fs "css/styles.css" = true
        ∨ readThrows fs "js/main.js" = true ∨ readThrows fs "sw.js" = true) ↔
      ∃ path ∈ ["index.html", "css/styles.css", "js/main.js", "sw.js"],
        fs.existsSync path = true ∧ fs.readable path = false := by
  simp [readThrows]

/-- C20, as amended. For every state of the working directory the validator
exits with code 1 or 0; with code 1 exactly when a required file is missing, or
one of `index.html`, `css/styles.css`, `js/main.js`, `sw.js` exists and cannot be
read, or `manifest.json` exists and cannot be read, is not valid JSON, is `null`,
or has a required field that is absent or not truthy; and the number of warnings
does not change the exit code. -/
theorem validate_exit_code (fs : FileSystem) (warnings : Nat) :
    (validate fs warnings = 1 ∨ validate fs warnings = 0)
    ∧ (validate fs warnings = 1 ↔
        (∃ file ∈ requiredFiles, fs.existsSync file.1 = false)
        ∨ (∃ path ∈ ["index.html", "css/styles.css", "js/main.js", "sw.js"],
            fs.existsSync path = true ∧ fs.readable path = false)
        ∨ (fs.existsSync "manifest.json" = true
            ∧ (fs.manifest = none ∨ fs.manifest = some Json.null
                ∨ ∃ manifest, fs.manifest = some manifest
                    ∧ ∃ field ∈ requiredFields,
                        jsonTruthy (manifestField manifest field) = false)))
    ∧ ∀ other : Nat, validate fs other = validate fs warnings := by
  have hexit : exitCode (validateManifest fs (requiredFiles.foldl (checkFile fs) 0)) warnings = 1 ↔
      (∃ file ∈ requiredFiles, fs.existsSync file.1 = false)
      ∨ (fs.existsSync "manifest.json" = true
          ∧ (fs.manifest = none ∨ fs.manifest = some Json.null
              ∨ ∃ manifest, fs.manifest = some manifest
                  ∧ ∃ field ∈ requiredFields,
                      jsonTruthy (manifestField manifest field) = false)) := by
    rw [exitCode_eq, ← checkFiles_pos, ← validateManifest_pos]
    split <;> simp [*]
  refine ⟨?_, ?_, ?_⟩
  · rw [validate_reads, exitCode_eq]
    split
    · exact Or.inl rfl
    · split <;> simp
  · rw [validate_reads, ← readThrows_iff]
    by_cases hread : readThrows fs "index.html" = true ∨ readThrows fs "css/styles.css" = true
        ∨ readThrows fs "js/main.js" = true ∨ readThrows fs "sw.js" = true
    · rw [if_pos hread]
      exact ⟨fun _ => Or.inr (Or.inl hread), fun _ => rfl⟩
    · rw [if_neg hread, hexit]
      constructor
      · rintro (h | h)
        · exact Or.inl h
        · exact Or.inr (Or.inr h)
      · rintro (h | h | h)
        · exact Or.inl h
        · exact absurd h hread
        · exact Or.inr h
  · intro other
    rw [validate_reads, validate_reads, exitCode_eq, exitCode_eq]

/-- C18 from the dark theme. -/
theorem themeToggleClick_twice_witness :
    (darkTheme.dataTheme = some "dark" ∨ darkTheme.dataTheme = some "light")
    ∧ (themeToggleClick (themeToggleClick darkTheme)).dataTheme = darkTheme.dataTheme
    ∧ (themeToggleClick (themeToggleClick darkTheme)).storedTheme = darkTheme.dataTheme :=
  ⟨Or.inl rfl, (themeToggleClick_twice darkTheme (Or.inl rfl)).1,
    (themeToggleClick_twice darkTheme (Or.inl rfl)).2.1⟩

/-- C20 as stated fails: with every required file in place and readable the
validator still exits with code 1 when `manifest.json` is not valid JSON, and
when the manifest has its six fields but an empty `name`. -/
theorem validate_exit_one_without_missing :
    ¬ (validate brokenManifestDir 0 = 1 ↔
        ((∃ file ∈ requiredFiles, brokenManifestDir.existsSync file.1 = false)
          ∨ ∃ manifest, brokenManifestDir.manifest = some manifest
              ∧ ∃ field ∈ requiredFields, manifestField manifest field = none))
    ∧ ¬ (validate emptyNameDir 0 = 1 ↔
        ((∃ file ∈ requiredFiles, emptyNameDir.existsSync file.1 = false)
          ∨ ∃ manifest, emptyNameDir.manifest = some manifest
              ∧ ∃ field ∈ requiredFields, manifestField manifest field = none)) := by
  constructor
  · intro hiff
    have h := hiff.mp (by decide)
    simp [brokenManifestDir] at h
  · intro hiff
    have h := hiff.mp (by decide)
    simp [emptyNameDir, requiredFields, manifestField, List.lookup] at h

/-! ## Repulsion and visibility -/

theorem mouseInteraction_delta {F : Type} [LinearOrderedField F] (sqrt : F → F)
    (mousePos : MousePos F) (p : Particle F)
    (hd : pointerDistance sqrt mousePos p < 100) :
    mousePos.x - (mouseInteraction sqrt mousePos p).x =
        (1 + (100 - pointerDistance sqrt mousePos p) / 10000) * (mousePos.x - p.x)
    ∧ mousePos.y - (mouseInteraction sqrt mousePos p).y =
        (1 + (100 - pointerDistance sqrt mousePos p) / 10000) * (mousePos.y - p.y) := by
  unfold pointerDistance at hd ⊢
  simp only [mouseInteraction, hd, if_true]
  constructor
  · norm_num
    ring
  · norm_num
    ring

theorem handleVisibilityChange_restore {F : Type} [LinearOrderedField F] (s : PortfolioApp F) :
    handleVisibilityChange false (handleVisibilityChange true s) = s := by
  have hp : ∀ p : Particle F,
      ({ p with vx := p.vx * 0.1 * 10, vy := p.vy * 0.1 * 10 } : Particle F) = p := by
    intro p
    cases p
    simp only [Particle.mk.injEq, and_true, true_and]
    constructor <;> (norm_num; try ring)
  cases s
  simp [handleVisibilityChange, List.map_map, Function.comp_def, hp]

theorem visibilityChangeEvent_hidden {F : Type} [LinearOrderedField F] (s : PortfolioApp F) :
    visibilityChangeEvent true s =
      { s with
        particles := s.particles.map
          (fun p => { p with vx := 0.01 * p.vx, vy := 0.01 * p.vy }) } := by
  have hp : ∀ p : Particle F,
      ({ p with vx := p.vx * 0.1 * 0.1, vy := p.vy * 0.1 * 0.1 } : Particle F) =
        { p with vx := 0.01 * p.vx, vy := 0.01 * p.vy } := by
    intro p
    cases p
    simp only [Particle.mk.injEq, and_true, true_and]
    constructor <;> (norm_num; try ring)
  simp [visibilityChangeEvent, handleVisibilityChange, List.map_map, Function.comp_def, hp]

/-- C21. Over the real numbers, a particle at distance `d < 100` from the pointer
is moved by the mouse interaction to the distance `d * (1 + (100 - d) / 10000)`,
which is at least `d` and at most `1.01 * d`; its offset from the pointer is the
earlier offset times the positive factor `1 + (100 - d) / 10000`, so it stays on the
same ray; and a particle at distance 0 is not moved. -/
theorem mouseInteraction_moves_away (mousePos : MousePos ℝ) (p : Particle ℝ)
    (hd : pointerDistance Real.sqrt mousePos p < 100) :
    pointerDistance Real.sqrt mousePos (mouseInteraction Real.sqrt mousePos p) =
        pointerDistance Real.sqrt mousePos p
          * (1 + (100 - pointerDistance Real.sqrt mousePos p) / 10000)
    ∧ pointerDistance Real.sqrt mousePos p ≤
        pointerDistance Real.sqrt mousePos (mouseInteraction Real.sqrt mousePos p)
    ∧ pointerDistance Real.sqrt mousePos (mouseInteraction Real.sqrt mousePos p) ≤
        1.01 * pointerDistance Real.sqrt mousePos p
    ∧ 0 < 1 + (100 - pointerDistance Real.sqrt mousePos p) / 10000
    ∧ mousePos.x - (mouseInteraction Real.sqrt mousePos p).x =
        (1 + (100 - pointerDistance Real.sqrt mousePos p) / 10000) * (mousePos.x - p.x)
    ∧ mousePos.y - (mouseInteraction Real.sqrt mousePos p).y =
        (1 + (100 - pointerDistance Real.sqrt mousePos p) / 10000) * (mousePos.y - p.y)
    ∧ (pointerDistance Real.sqrt mousePos p = 0 → mouseInteraction Real.sqrt mousePos p = p) := by
  obtain ⟨hx, hy⟩ := mouseInteraction_delta Real.sqrt mousePos p hd
  have hd0 : 0 ≤ pointerDistance Real.sqrt mousePos p := Real.sqrt_nonneg _
  have hk : 0 < 1 + (100 - pointerDistance Real.sqrt mousePos p) / 10000 := by linarith
  have hsq : pointerDistance Real.sqrt mousePos p * pointerDistance Real.sqrt mousePos p =
      (mousePos.x - p.x) * (mousePos.x - p.x) + (mousePos.y - p.y) * (mousePos.y - p.y) :=
    Real.mul_self_sqrt (add_nonneg (mul_self_nonneg _) (mul_self_nonneg _))
  have hnew : pointerDistance Real.sqrt mousePos (mouseInteraction Real.sqrt mousePos p) =
      pointerDistance Real.sqrt mousePos p
        * (1 + (100 - pointerDistance Real.sqrt mousePos p) / 10000) := by
    have hunf : pointerDistance Real.sqrt mousePos (mouseInteraction Real.sqrt mousePos p) =
        Real.sqrt ((mousePos.x - (mouseInteraction Real.sqrt mousePos p).x)
            * (mousePos.x - (mouseInteraction Real.sqrt mousePos p).x)
          + (mousePos.y - (mouseInteraction Real.sqrt mousePos p).y)
            * (mousePos.y - (mouseInteraction Real.sqrt mousePos p).y)) := rfl
    rw [hunf, hx, hy,
      Real.sqrt_eq_iff_mul_self_eq (add_nonneg (mul_self_nonneg _) (mul_self_nonneg _))
        (mul_nonneg hd0 (le_of_lt hk))]
    nlinarith [hsq]
  refine ⟨hnew, ?_, ?_, hk, hx, hy, ?_⟩
  · rw [hnew]
    nlinarith
  · rw [hnew]
    nlinarith
  · intro hzero
    have hsum : (mousePos.x - p.x) * (mousePos.x - p.x)
        + (mousePos.y - p.y) * (mousePos.y - p.y) = 0 := by
      rw [← hsq, hzero, mul_zero]
    have hdx : mousePos.x - p.x = 0 := by
      nlinarith [mul_self_nonneg (mousePos.x - p.x), mul_self_nonneg (mousePos.y - p.y)]
    have hdy : mousePos.y - p.y = 0 := by
      nlinarith [mul_self_nonneg (mousePos.x - p.x), mul_self_nonneg (mousePos.y - p.y)]
    have hlt : Real.sqrt ((mousePos.x - p.x) * (mousePos.x - p.x)
        + (mousePos.y - p.y) * (mousePos.y - p.y)) < 100 := hd
    cases p
    simp only [mouseInteraction, hlt, if_true]
    simp only at hdx hdy
    simp [hdx, hdy]

/-- C22. In exact arithmetic `handleVisibilityChange` with the tab hidden followed
by `handleVisibilityChange` with the tab visible gives back the state it started
from, so every `vx` and `vy` is restored and no position, size, opacity or type is
changed; after the call with the tab hidden every velocity component is 0.1 times
the original one and nothing else differs; the two `visibilitychange` events, each
of which runs the method twice, also give back the starting state. -/
theorem handleVisibilityChange_round_trip {F : Type} [LinearOrderedField F]
    (s : PortfolioApp F) :
    handleVisibilityChange false (handleVisibilityChange true s) = s
    ∧ handleVisibilityChange true s =
        { s with
          particles := s.particles.map
            (fun p => { p with vx := 0.1 * p.vx, vy := 0.1 * p.vy }) }
    ∧ visibilityChangeEvent false (visibilityChangeEvent true s) = s := by
  refine ⟨handleVisibilityChange_restore s, ?_, ?_⟩
  · simp [handleVisibilityChange, mul_comm]
  · have hp : ∀ p : Particle F,
        ({ p with vx := p.vx * 0.1 * 0.1 * 10 * 10, vy := p.vy * 0.1 * 0.1 * 10 * 10 }
          : Particle F) = p := by
      intro p
      cases p
      simp only [Particle.mk.injEq, and_true, true_and]
      constructor <;> (norm_num; try ring)
    cases s
    simp [visibilityChangeEvent, handleVisibilityChange, List.map_map, Function.comp_def, hp]

/-- C21 for a particle at `(30, 40)` with the pointer at the origin, at distance 50. -/
theorem mouseInteraction_moves_away_witness :
    pointerDistance Real.sqrt { x := 0, y := 0 }
        { x := 30, y := 40, vx := 0, vy := 0, size := 1, opacity := 1,
          type := ParticleType.dot } < 100
    ∧ pointerDistance Real.sqrt { x := 0, y := 0 }
        { x := 30, y := 40, vx := 0, vy := 0, size := 1, opacity := 1,
          type := ParticleType.dot } ≤
      pointerDistance Real.sqrt { x := 0, y := 0 }
        (mouseInteraction Real.sqrt { x := 0, y := 0 }
          { x := 30, y := 40, vx := 0, vy := 0, size := 1, opacity := 1,
            type := ParticleType.dot }) :=
  ⟨by
      unfold pointerDistance
      rw [Real.sqrt_lt' (by norm_num)]
      norm_num,
    (mouseInteraction_moves_away { x := 0, y := 0 }
      { x := 30, y := 40, vx := 0, vy := 0, size := 1, opacity := 1,
        type := ParticleType.dot }
      (by
        unfold pointerDistance
        rw [Real.sqrt_lt' (by norm_num)]
        norm_num)).2.1⟩

/-! ## Typewriter and section navigation -/

theorem typeTicks_succ (n : Nat) (t : Typewriter) :
    typeTicks (n + 1) t = (typeTicks n t).bind typeTick := by
  induction n generalizing t with
  | zero => simp [typeTicks]
  | succ n ih =>
    rw [typeTicks]
    cases h : typeTick t with
    | none => simp [typeTicks, h]
    | some t' =>
      simp only [Option.some_bind]
      rw [ih t']
      conv_rhs => rw [typeTicks, h]
      simp

theorem typeTicks_stuck (n : Nat) :
    typeTicks (4 + n) (typewriterStart "Hi," "") =
      some { strings := ["Hi", ""], currentString := 1, currentChar := (n : Int)
             isDeleting := false, textContent := ""
             typeSpeed := if n = 0 then 500 else 100 } := by
  induction n with
  | zero => decide
  | succ n ih =>
    rw [← Nat.add_assoc, typeTicks_succ, ih]
    simp only [Option.some_bind, typeTick]
    simp [jsSubstringTo]
    omega

/-- C23, the code on `data-strings="Hi,"`. The value splits into "Hi" and the
empty string; once "Hi" has been typed and deleted the typewriter stays on the
empty string for ever: `n` ticks later the character index is `n`, above the length
0 of the current string from the first of them on, and no string is typed again. -/
theorem typeTicks_empty_string :
    jsSplitComma "Hi," = ["Hi", ""]
    ∧ (∀ n : Nat,
        (typeTicks (4 + n) (typewriterStart "Hi," "")).map
            (fun t => (t.currentString, t.currentChar, t.textContent))
          = some (1, (n : Int), ""))
    ∧ (typeTicks 5 (typewriterStart "Hi," "")).map
          (fun t => decide (t.currentChar ≤ (((t.strings.getD t.currentString "").length : Nat) : Int)))
        = some false := by
  refine ⟨by decide, ?_, by decide⟩
  intro n
  rw [typeTicks_stuck]
  rfl

/-- C24, the code for the empty `currentSection` and for the seven ids. For the
empty string `indexOf` gives -1: `scrollToNextSection` computes the index 0, but
`scrollToPrevSection` computes -2, which is no index of the list, and scrolls
nowhere. For the section at index `i` the next index is `(i + 1) mod 7` and the
previous one `(i - 1) mod 7`. -/
theorem scrollToPrevSection_empty :
    jsIndexOf sectionIds "" = -1
    ∧ nextIndex "" = 0
    ∧ prevIndex "" = -2
    ∧ jsElementAt sectionIds (prevIndex "") = none
    ∧ scrollToNextSection sevenSections "" = some "home"
    ∧ scrollToPrevSection sevenSections "" = none
    ∧ ∀ i : Nat, i < 7 →
        (sectionIds.get? i).map nextIndex = some (((i : Int) + 1) % 7)
        ∧ (sectionIds.get? i).map prevIndex = some (((i : Int) - 1) % 7)
        ∧ (sectionIds.get? ((i + 1) % 7)).map prevIndex = some (i : Int) := by
  refine ⟨by decide, by decide, by decide, by decide, by decide, by decide, ?_⟩
  decide

theorem typeTick_bounds (t : Typewriter) (current : String)
    (hne : ∀ s ∈ t.strings, 0 < s.length)
    (hcur : t.strings.get? t.currentString = some current)
    (htyping : t.isDeleting = false → 0 ≤ t.currentChar ∧ t.currentChar < (current.length : Int))
    (hdeleting : t.isDeleting = true → 1 ≤ t.currentChar ∧ t.currentChar ≤ (current.length : Int)) :
    ∃ (t' : Typewriter) (current' : String),
      typeTick t = some t' ∧ t'.strings = t.strings
      ∧ t'.strings.get? t'.currentString = some current'
      ∧ (t'.isDeleting = false →
          0 ≤ t'.currentChar ∧ t'.currentChar < (current'.length : Int))
      ∧ (t'.isDeleting = true →
          1 ≤ t'.currentChar ∧ t'.currentChar ≤ (current'.length : Int))
      ∧ t'.textContent = jsSubstringTo current' t'.currentChar := by
  cases hdel : t.isDeleting with
  | false =>
    obtain ⟨h0, h1⟩ := htyping hdel
    by_cases hend : t.currentChar + 1 = (current.length : Int)
    · have ht : typeTick t = some { t with
          textContent := jsSubstringTo current (t.currentChar + 1)
          currentChar := t.currentChar + 1, typeSpeed := 2000, isDeleting := true } := by
        unfold typeTick
        rw [hcur]
        simp [hdel, hend]
      refine ⟨_, current, ht, rfl, hcur, ?_, ?_, rfl⟩
      · intro h
        exact absurd h (by simp)
      · intro _
        exact ⟨by show (1 : Int) ≤ t.currentChar + 1; omega,
          by show t.currentChar + 1 ≤ (current.length : Int); omega⟩
    · have ht : typeTick t = some { t with
          textContent := jsSubstringTo current (t.currentChar + 1)
          currentChar := t.currentChar + 1, typeSpeed := 100 } := by
        unfold typeTick
        rw [hcur]
        simp [hdel, hend]
      refine ⟨_, current, ht, rfl, hcur, ?_, ?_, rfl⟩
      · intro _
        exact ⟨by show (0 : Int) ≤ t.currentChar + 1; omega,
          by show t.currentChar + 1 < (current.length : Int); omega⟩
      · intro h
        have h' : t.isDeleting = true := h
        rw [hdel] at h'
        exact absurd h' (by simp)
  | true =>
    obtain ⟨h1, h2⟩ := hdeleting hdel
    by_cases hzero : t.currentChar - 1 = 0
    · have hlen : t.currentString < t.strings.length := by
        rw [List.get?_eq_some] at hcur
        exact hcur.1
      have hmod : (t.currentString + 1) % t.strings.length < t.strings.length :=
        Nat.mod_lt _ (by omega)
      have hnext : t.strings.get? ((t.currentString + 1) % t.strings.length) =
          some (t.strings.get ⟨_, hmod⟩) := List.get?_eq_get hmod
      have ht : typeTick t = some { t with
          textContent := jsSubstringTo current (t.currentChar - 1)
          currentChar := t.currentChar - 1, isDeleting := false
          currentString := (t.currentString + 1) % t.strings.length, typeSpeed := 500 } := by
        unfold typeTick
        rw [hcur]
        simp [hdel, hzero]
      refine ⟨_, _, ht, rfl, hnext, ?_, ?_, ?_⟩
      · intro _
        have hpos := hne _ (List.get_mem t.strings _ hmod)
        exact ⟨by show (0 : Int) ≤ t.currentChar - 1; omega,
          by show t.currentChar - 1 < ((t.strings.get ⟨_, hmod⟩).length : Int); omega⟩
      · intro h
        exact absurd h (by simp)
      · show jsSubstringTo current (t.currentChar - 1) =
          jsSubstringTo (t.strings.get ⟨_, hmod⟩) (t.currentChar - 1)
        rw [hzero]
        simp [jsSubstringTo]
    · have ht : typeTick t = some { t with
          textContent := jsSubstringTo current (t.currentChar - 1)
          currentChar := t.currentChar - 1, typeSpeed := 50 } := by
        unfold typeTick
        rw [hcur]
        simp [hdel, hzero]
      refine ⟨_, current, ht, rfl, hcur, ?_, ?_, rfl⟩
      · intro h
        have h' : t.isDeleting = false := h
        rw [hdel] at h'
        exact absurd h' (by simp)
      · intro _
        exact ⟨by show (1 : Int) ≤ t.currentChar - 1; omega,
          by show t.currentChar - 1 ≤ (current.length : Int); omega⟩

theorem splitComma_ne_nil (cs : List Char) : splitComma cs ≠ [] := by
  cases cs with
  | nil => simp [splitComma]
  | cons c cs =>
    unfold splitComma
    split
    · simp
    · split <;> simp

theorem typeTicks_bounds (dataStrings textContent : String)
    (hne : ∀ s ∈ jsSplitComma dataStrings, 0 < s.length) (n : Nat) :
    ∃ (t : Typewriter) (current : String),
      typeTicks n (typewriterStart dataStrings textContent) = some t
      ∧ t.strings = jsSplitComma dataStrings
      ∧ t.strings.get? t.currentString = some current
      ∧ 0 ≤ t.currentChar ∧ t.currentChar ≤ (current.length : Int)
      ∧ (t.isDeleting = false → t.currentChar < (current.length : Int))
      ∧ (t.isDeleting = true → 1 ≤ t.currentChar)
      ∧ (0 < n → t.textContent = jsSubstringTo current t.currentChar) := by
  induction n with
  | zero =>
    have hnil : jsSplitComma dataStrings ≠ [] := by
      unfold jsSplitComma
      simpa using splitComma_ne_nil dataStrings.data
    obtain ⟨first, rest, hsplit⟩ := List.exists_cons_of_ne_nil hnil
    have hfirst : 0 < first.length := hne first (by rw [hsplit]; exact List.mem_cons_self _ _)
    refine ⟨typewriterStart dataStrings textContent, first, rfl, rfl, ?_, ?_, ?_, ?_, ?_, ?_⟩
    · show (jsSplitComma dataStrings).get? 0 = some first
      rw [hsplit]
      rfl
    · exact le_refl _
    · show (0 : Int) ≤ (first.length : Int)
      omega
    · intro _
      show (0 : Int) < (first.length : Int)
      omega
    · intro h
      exact absurd h (by simp [typewriterStart])
    · intro h
      exact absurd h (lt_irrefl 0)
  | succ n ih =>
    obtain ⟨t, current, hrun, hstrings, hcur, h0, hle, htyping, hdeleting, _⟩ := ih
    obtain ⟨t', current', htick, hs', hcur', htyping', hdeleting', htext'⟩ :=
      typeTick_bounds t current (by rw [hstrings]; exact hne) hcur
        (fun h => ⟨h0, htyping h⟩) (fun h => ⟨hdeleting h, hle⟩)
    refine ⟨t', current', ?_, by rw [hs', hstrings], hcur', ?_, ?_, ?_, ?_, fun _ => htext'⟩
    · rw [typeTicks_succ, hrun]
      exact htick
    · cases hd : t'.isDeleting with
      | false => exact (htyping' hd).1
      | true => have := (hdeleting' hd).1; omega
    · cases hd : t'.isDeleting with
      | false => exact le_of_lt (htyping' hd).2
      | true => exact (hdeleting' hd).2
    · intro hd
      exact (htyping' hd).2
    · intro hd
      exact (hdeleting' hd).1

/-! ## Counters -/

theorem updateCounter_run {F : Type} [LinearOrderedField F] [FloorRing F] (target : Int)
    (inc : F) (hpos : 0 < inc) (h125 : 125 * inc = (target : F)) :
    ∀ (fuel k : Nat), k < 125 → 125 ≤ k + fuel →
      updateCounter target inc fuel ((k : F) * inc) =
        ((List.range' (k + 1) (124 - k)).map (fun j : Nat => Int.floor ((j : F) * inc))
          ++ [target], true) := by
  intro fuel
  induction fuel with
  | zero =>
    intro k hk hfuel
    omega
  | succ fuel ih =>
    intro k hk hfuel
    have hcur : (k : F) * inc + inc = ((k + 1 : Nat) : F) * inc := by
      push_cast
      ring
    rw [updateCounter]
    simp only []
    rw [hcur]
    by_cases hlast : k = 124
    · subst hlast
      have hnot : ¬ (((124 + 1 : Nat) : F) * inc < (target : F)) := by
        rw [← h125]
        norm_num
      rw [if_neg hnot]
      simp
    · have hlt : ((k + 1 : Nat) : F) * inc < (target : F) := by
        rw [← h125]
        have hk1 : ((k + 1 : Nat) : F) < 125 := by
          have : k + 1 < 125 := by omega
          exact_mod_cast this
        exact mul_lt_mul_of_pos_right hk1 hpos
      rw [if_pos hlt, ih (k + 1) (by omega) (by omega)]
      have hr : 124 - k = (124 - (k + 1)) + 1 := by omega
      rw [hr, List.range'_succ]
      simp

theorem updateCounter_zero {F : Type} [LinearOrderedField F] [FloorRing F] (fuel : Nat) :
    updateCounter (0 : Int) (0 : F) (fuel + 1) 0 = ([0], true) := by
  simp [updateCounter]

theorem animateCounter_pos {F : Type} [LinearOrderedField F] [FloorRing F] (target : Int)
    (h : 0 < target) (frames : Nat) (hframes : 125 ≤ frames) :
    animateCounter F target frames =
      ((List.range' 1 124).map (fun j : Nat => Int.floor ((j : F) * ((target : F) / (2000 / 16))))
        ++ [target], true) := by
  have hpos : (0 : F) < (target : F) / (2000 / 16) := by
    have : (0 : F) < (target : F) := by exact_mod_cast h
    positivity
  have h125 : 125 * ((target : F) / (2000 / 16)) = (target : F) := by
    field_simp
    ring
  have hrun := updateCounter_run target ((target : F) / (2000 / 16)) hpos h125 frames 0
    (by norm_num) (by omega)
  simp only [Nat.cast_zero, zero_mul, Nat.zero_add, Nat.sub_zero] at hrun
  unfold animateCounter
  exact hrun

theorem animateCounter_zero {F : Type} [LinearOrderedField F] [FloorRing F] (frames : Nat)
    (hframes : 1 ≤ frames) : animateCounter F 0 frames = ([0], true) := by
  obtain ⟨fuel, rfl⟩ : ∃ fuel, frames = fuel + 1 := ⟨frames - 1, by omega⟩
  unfold animateCounter
  simp only [Int.cast_zero, zero_div]
  exact updateCounter_zero fuel

/-- C25. For every integer `target ≥ 0`, in exact arithmetic the update loop of
`animateCounter` ends within 125 frames; every value shown before the last is the
floor of a value strictly below the target, the values shown never decrease, the
last value shown is the target, and following the loop for more than 125 frames
changes nothing. -/
theorem animateCounter_terminates {F : Type} [LinearOrderedField F] [FloorRing F]
    (target : Int) (h : 0 ≤ target) :
    (animateCounter F target 125).2 = true
    ∧ (animateCounter F target 125).1.length ≤ 125
    ∧ (animateCounter F target 125).1.getLast? = some target
    ∧ (∀ v ∈ (animateCounter F target 125).1.dropLast,
        ∃ c : F, c < (target : F) ∧ v = Int.floor c)
    ∧ List.Pairwise (fun a b => a ≤ b) (animateCounter F target 125).1
    ∧ ∀ frames, 125 ≤ frames → animateCounter F target frames = animateCounter F target 125 := by
  rcases lt_or_eq_of_le h with hpos | hzero
  · have hinc : (0 : F) < (target : F) / (2000 / 16) := by
      have : (0 : F) < (target : F) := by exact_mod_cast hpos
      positivity
    have h125 : 125 * ((target : F) / (2000 / 16)) = (target : F) := by
      field_simp
      ring
    have hbelow : ∀ j : Nat, j ∈ List.range' 1 124 →
        (j : F) * ((target : F) / (2000 / 16)) < (target : F) := by
      intro j hj
      rw [List.mem_range'_1] at hj
      have hj1 : (j : F) < 125 := by
        have : j < 125 := by omega
        exact_mod_cast this
      calc (j : F) * ((target : F) / (2000 / 16))
          < 125 * ((target : F) / (2000 / 16)) := mul_lt_mul_of_pos_right hj1 hinc
        _ = (target : F) := h125
    rw [animateCounter_pos target hpos 125 (le_refl _)]
    refine ⟨rfl, by simp, by simp, ?_, ?_, ?_⟩
    · intro v hv
      rw [List.dropLast_concat] at hv
      obtain ⟨j, hj, rfl⟩ := List.mem_map.mp hv
      exact ⟨_, hbelow j hj, rfl⟩
    · rw [List.pairwise_append]
      refine ⟨?_, List.pairwise_singleton _ _, ?_⟩
      · rw [List.pairwise_map]
        refine List.Pairwise.imp ?_ (List.pairwise_lt_range' 1 124)
        intro a b hab
        apply Int.floor_le_floor
        have : (a : F) ≤ (b : F) := by exact_mod_cast le_of_lt hab
        exact mul_le_mul_of_nonneg_right this (le_of_lt hinc)
      · intro a ha b hb
        obtain ⟨j, hj, rfl⟩ := List.mem_map.mp ha
        rw [List.mem_singleton] at hb
        rw [hb]
        have := Int.floor_le ((j : F) * ((target : F) / (2000 / 16)))
        have hlt := lt_of_le_of_lt this (hbelow j hj)
        exact le_of_lt (by exact_mod_cast hlt)
    · intro frames hframes
      exact animateCounter_pos target hpos frames hframes
  · subst hzero
    rw [animateCounter_zero 125 (by norm_num)]
    refine ⟨rfl, by simp, by simp, by simp, by simp, ?_⟩
    intro frames hframes
    exact animateCounter_zero frames (by omega)

/-- C25 for a counter with `data-count="250"`. -/
theorem animateCounter_terminates_witness :
    (0 : Int) ≤ 250
    ∧ (animateCounter ℚ 250 125).2 = true
    ∧ (animateCounter ℚ 250 125).1.length ≤ 125
    ∧ (animateCounter ℚ 250 125).1.getLast? = some 250 :=
  ⟨by decide, (animateCounter_terminates 250 (by decide)).1,
    (animateCounter_terminates 250 (by decide)).2.1,
    (animateCounter_terminates 250 (by decide)).2.2.1⟩

end Portfolio
